import Mathlib

/-!
LilOpt: the Levenberg-Marquardt solver of `LilOpt/LevenbergMarquardt.h`

A shallow embedding of the class `LilOpt::Solver::LevenbergMarquardt` and of its two
member functions `Iterate` and `Minimize`.

* `_Scalar` is taken to be `ℚ`: exact arithmetic, and every definition can be evaluated.
  Where the rounding of `_Scalar` matters, for the two compound assignments of the damping
  member, `IterateRounded` and `MinimizeRounded` take the rounding as a parameter.
* `Matrix<_Scalar, n, 1>` is `Fin n → ℚ`, `Matrix<_Scalar, m, n>` is `Matrix (Fin m) (Fin n) ℚ`.
* Eigen's `fullPivHouseholderQr().solve` is a parameter `qrSolve` of the embedding.
* The `while` loop of `Iterate` has no bound in the source; it is run with fuel, and
  `none` means that the fuel ran out before the loop condition became false.
-/

namespace LilOpt

/-- Column vectors `Matrix<_Scalar, n, 1>`. -/
abbrev Vec (n : Nat) := Fin n → ℚ

/-- Fixed-size matrices `Matrix<_Scalar, m, n>`. -/
abbrev Mat (m n : Nat) := Matrix (Fin m) (Fin n) ℚ

/-- Modelled from the spec: `Options.h` is not among the sources. The spec gives `Options` a
damping factor, its growth multiplier and the iteration cap. The source names two damping
members: it reads `_Options.LevenbergMarquardtLambda` (lines 57 and 78) and updates
`_Options.LevenbergMarquartLambda` (lines 75 and 86). They are kept apart here, as the
source spells them: the first is the damping factor of the spec, the one the damped matrix
is built from. -/
structure Options where
  LevenbergMarquardtLambda : ℚ
  LevenbergMarquartLambda : ℚ
  LevenbergMarquardtV : ℚ
  MaxIterations : Nat

/-- Modelled from the spec: `IErrorFunctionDiff.h` is not among the sources. The spec asks for
two evaluation forms, both pure functions of the data points and the parameter vector, each
signalling an evaluation failure. `EvaluateJ` is the four-argument overload
`Evaluate(points, params, residuals, jacobian)`, `Evaluate` the three-argument overload
`Evaluate(points, params, residuals)`; the `Bool` is the success flag, the other components
are what the call leaves in its output arguments. -/
structure IErrorFunctionDiff (R P D : Nat) where
  EvaluateJ : Mat R D → Vec P → Bool × Vec R × Mat R P
  Evaluate : Mat R D → Vec P → Bool × Vec R

/-- The fields of `LevenbergMarquardt` (lines 108 to 117). -/
structure LevenbergMarquardt (R P D : Nat) where
  _Options : Options
  _SumResidual : ℚ
  _Function : IErrorFunctionDiff R P D
  _DataPoints : Mat R D
  _CurrentParams : Vec P

/-- The constructor (lines 28 to 38). -/
def LevenbergMarquardt.new {R P D : Nat} (options : Options) (initialParams : Vec P)
    (function : IErrorFunctionDiff R P D) (dataPoints : Mat R D) : LevenbergMarquardt R P D :=
  { _Options := options
    _DataPoints := dataPoints
    _Function := function
    _CurrentParams := initialParams
    _SumResidual := -1 }

/-- One call of the error function, recorded in the order the calls are made. -/
inductive EvalCall (P : Nat) where
  | withJacobian (params : Vec P)
  | residualsOnly (params : Vec P)

/-- The locals of `Iterate` that are set before the loop and never assigned again
(lines 46 to 56, 67 and 70). -/
structure IterateFrame (R P : Nat) where
  J : Mat R P
  Ep0 : Vec R
  Jt : Mat P R
  JtJ : Mat P P
  JtJdiag : Mat P P
  JtEp0 : Vec P
  Ep0Sum : ℚ
  v : ℚ

/-- The part of the state the loop of `Iterate` works on: the object, the locals that the
loop body assigns, and the record of the error-function calls made so far. -/
structure TrialState (R P D : Nat) where
  self : LevenbergMarquardt R P D
  P1mP0 : Vec P
  P1 : Vec P
  Ep1 : Vec R
  Ep1Sum : ℚ
  evals : List (EvalCall P)

/-- Lines 46 to 56, 67 and 70: the evaluation at `_CurrentParams` and the normal equations. -/
def iterateFrame {R P D : Nat} (self : LevenbergMarquardt R P D) : IterateFrame R P :=
  let out := self._Function.EvaluateJ self._DataPoints self._CurrentParams
  let Ep0 : Vec R := out.2.1
  let J : Mat R P := out.2.2
  let Jt : Mat P R := J.transpose
  let JtJ : Mat P P := Jt * J
  let JtJdiag : Mat P P := Matrix.diagonal (Matrix.diag JtJ)
  let JtEp0 : Vec P := Jt.mulVec Ep0
  { J := J, Ep0 := Ep0, Jt := Jt, JtJ := JtJ, JtJdiag := JtJdiag, JtEp0 := JtEp0
    Ep0Sum := ∑ i, Ep0 i
    v := self._Options.LevenbergMarquardtV }

/-- Lines 57 to 68: the first candidate and its residual sum. -/
def firstTrial {R P D : Nat} (qrSolve : Mat P P → Vec P → Vec P)
    (self : LevenbergMarquardt R P D) : TrialState R P D :=
  let f := iterateFrame self
  let P1mP0 : Vec P :=
    qrSolve (f.JtJ + self._Options.LevenbergMarquardtLambda • f.JtJdiag) f.JtEp0
  let P1 : Vec P := P1mP0 + self._CurrentParams
  let Ep1 : Vec R := (self._Function.Evaluate self._DataPoints P1).2
  { self := self, P1mP0 := P1mP0, P1 := P1, Ep1 := Ep1
    Ep1Sum := ∑ i, Ep1 i
    evals := [EvalCall.withJacobian self._CurrentParams, EvalCall.residualsOnly P1] }

/-- Lines 75 to 82: the body of the loop. -/
def retryBody {R P D : Nat} (qrSolve : Mat P P → Vec P → Vec P) (f : IterateFrame R P)
    (t : TrialState R P D) : TrialState R P D :=
  let self1 : LevenbergMarquardt R P D :=
    { t.self with
      _Options :=
        { t.self._Options with
          LevenbergMarquartLambda := t.self._Options.LevenbergMarquartLambda * f.v } }
  let P1mP0 : Vec P :=
    qrSolve (f.JtJ + self1._Options.LevenbergMarquardtLambda • f.JtJdiag) f.JtEp0
  let P1 : Vec P := P1mP0 + self1._CurrentParams
  let Ep1 : Vec R := (self1._Function.Evaluate self1._DataPoints P1).2
  { self := self1, P1mP0 := P1mP0, P1 := P1, Ep1 := Ep1
    Ep1Sum := Matrix.dotProduct Ep1 Ep1
    evals := t.evals ++ [EvalCall.residualsOnly P1] }

/-- Line 72: the loop condition `Ep1Sum > Ep0Sum`. -/
def retryCond {R P D : Nat} (f : IterateFrame R P) (t : TrialState R P D) : Bool :=
  decide (t.Ep1Sum > f.Ep0Sum)

/-- Lines 72 to 84: the loop, with fuel; `none` when the fuel runs out. -/
def retryLoop {R P D : Nat} (qrSolve : Mat P P → Vec P → Vec P) (f : IterateFrame R P) :
    Nat → TrialState R P D → Option (TrialState R P D)
  | fuel, t =>
    if retryCond f t then
      match fuel with
      | 0 => none
      | fuel + 1 => retryLoop qrSolve f fuel (retryBody qrSolve f t)
    else some t

/-- What a returning `Iterate` call leaves: the returned value, the object, and the locals
at the `return` statement. -/
structure IterateResult (R P D : Nat) where
  ret : Bool
  self : LevenbergMarquardt R P D
  frame : IterateFrame R P
  P1mP0 : Vec P
  P1 : Vec P
  Ep1 : Vec R
  Ep1Sum : ℚ
  evals : List (EvalCall P)

/-- Lines 86 to 88: the statements after the loop. -/
def iterateExit {R P D : Nat} (f : IterateFrame R P) (t : TrialState R P D) :
    IterateResult R P D :=
  { ret := true
    self :=
      { t.self with
        _Options :=
          { t.self._Options with
            LevenbergMarquartLambda := t.self._Options.LevenbergMarquartLambda / f.v } }
    frame := f, P1mP0 := t.P1mP0, P1 := t.P1, Ep1 := t.Ep1, Ep1Sum := t.Ep1Sum
    evals := t.evals }

/-- Lines 42 to 89: `Iterate`. -/
def Iterate {R P D : Nat} (qrSolve : Mat P P → Vec P → Vec P) (fuel : Nat)
    (self : LevenbergMarquardt R P D) : Option (IterateResult R P D) :=
  let f := iterateFrame self
  match retryLoop qrSolve f fuel (firstTrial qrSolve self) with
  | none => none
  | some t => some (iterateExit f t)

/-- What a returning `Minimize` call leaves: the returned value, the object, and the values
returned by the `Iterate` calls it made, in order. -/
structure MinimizeResult (R P D : Nat) where
  ret : Bool
  self : LevenbergMarquardt R P D
  calls : List Bool

/-- Lines 96 to 103: the `for` loop of `Minimize` over a given `Iterate`, from counter `i`.
The fuel bounds the number of passes; `none` when it runs out or a call does not return.
The counter is a natural number: the `unsigned int` of the source stays below
`MaxIterations` and so never wraps. -/
def MinimizeLoop {R P D : Nat}
    (iter : LevenbergMarquardt R P D → Option (Bool × LevenbergMarquardt R P D)) :
    Nat → Nat → LevenbergMarquardt R P D → List Bool → Option (MinimizeResult R P D)
  | fuel, i, self, calls =>
    if i < self._Options.MaxIterations then
      match fuel with
      | 0 => none
      | fuel + 1 =>
        match iter self with
        | none => none
        | some (result, self1) =>
          if !result then some { ret := result, self := self1, calls := calls ++ [result] }
          else MinimizeLoop iter fuel (i + 1) self1 (calls ++ [result])
    else some { ret := true, self := self, calls := calls }

/-- The value and the object of an `Iterate` call, as `Minimize` sees them. -/
def IterateCall {R P D : Nat} (qrSolve : Mat P P → Vec P → Vec P) (fuel : Nat)
    (self : LevenbergMarquardt R P D) : Option (Bool × LevenbergMarquardt R P D) :=
  (Iterate qrSolve fuel self).map fun r => (r.ret, r.self)

/-- Lines 91 to 104: `Minimize` over a given `Iterate`. -/
def MinimizeWith {R P D : Nat}
    (iter : LevenbergMarquardt R P D → Option (Bool × LevenbergMarquardt R P D))
    (fuel : Nat) (self : LevenbergMarquardt R P D) : Option (MinimizeResult R P D) :=
  MinimizeLoop iter fuel 0 self []

/-- Lines 91 to 104: `Minimize`. The fuel bounds every loop. -/
def Minimize {R P D : Nat} (qrSolve : Mat P P → Vec P → Vec P) (fuel : Nat)
    (self : LevenbergMarquardt R P D) : Option (MinimizeResult R P D) :=
  MinimizeWith (IterateCall qrSolve fuel) fuel self

/-- The state of the loop of `Iterate` after `k` passes through its body. -/
def trialAt {R P D : Nat} (qrSolve : Mat P P → Vec P → Vec P)
    (self : LevenbergMarquardt R P D) (k : Nat) : TrialState R P D :=
  (retryBody qrSolve (iterateFrame self))^[k] (firstTrial qrSolve self)

/-- An exact linear solve by the rule of Cramer: one admissible `qrSolve`. -/
def exactSolve {P : Nat} (A : Mat P P) (b : Vec P) : Vec P :=
  (A.det)⁻¹ • A.adjugate.mulVec b

/-- The solve is exact on invertible systems. -/
def SolveExact {P : Nat} (qrSolve : Mat P P → Vec P → Vec P) : Prop :=
  ∀ (A : Mat P P) (b : Vec P), A.det ≠ 0 → A.mulVec (qrSolve A b) = b

/-- A one-parameter error function: the residual of observation `i` is `p - y i`, with
Jacobian `1`; both overloads succeed. -/
def offsetFunction : IErrorFunctionDiff 1 1 1 where
  EvaluateJ := fun pts p => (true, fun i => p 0 - pts i 0, fun _ _ => 1)
  Evaluate := fun pts p => (true, fun i => p 0 - pts i 0)

/-- A solver for `offsetFunction` with the observation `y`, started at `p0`, with both
damping members `1`, growth multiplier `2` and `n` iterations. -/
def offsetSolver (y p0 : ℚ) (n : Nat) : LevenbergMarquardt 1 1 1 :=
  LevenbergMarquardt.new ⟨1, 1, 2, n⟩ (fun _ => p0) offsetFunction (fun _ _ => y)

/-- The line model: the residual of the observation `(x, y)` at the parameters `(a, b)` is
`a·x + b - y`, with Jacobian row `(x, 1)`; both overloads succeed. -/
def lineFunction : IErrorFunctionDiff 2 2 2 where
  EvaluateJ := fun pts p =>
    (true, fun i => p 0 * pts i 0 + p 1 - pts i 1, fun i j => if j = 0 then pts i 0 else 1)
  Evaluate := fun pts p => (true, fun i => p 0 * pts i 0 + p 1 - pts i 1)

/-- A solver for the line model on the noiseless observations `(0, 0)` and `(1, 1)` of the
line `a = 1`, `b = 0`, started at `(0, 0)` with both damping members `1`, growth
multiplier `2` and `n` iterations. -/
def lineSolver (n : Nat) : LevenbergMarquardt 2 2 2 :=
  LevenbergMarquardt.new ⟨1, 1, 2, n⟩ ![0, 0] lineFunction !![0, 0; 1, 1]

/-- An error function whose every evaluation fails, leaving zero residuals and a zero
Jacobian in its output arguments. -/
def failingFunction : IErrorFunctionDiff 1 1 1 where
  EvaluateJ := fun _ _ => (false, 0, 0)
  Evaluate := fun _ _ => (false, 0)

/-- A solver for `failingFunction`, started at `p = 3`, with both damping members `1`, growth
multiplier `2` and one iteration. -/
def failingSolver : LevenbergMarquardt 1 1 1 :=
  LevenbergMarquardt.new ⟨1, 1, 2, 1⟩ (fun _ => 3) failingFunction (fun _ _ => 0)

/-- Whether a recorded call is of the residuals-plus-Jacobian form. -/
def EvalCall.hasJacobian {P : Nat} : EvalCall P → Bool
  | EvalCall.withJacobian _ => true
  | EvalCall.residualsOnly _ => false

/-- An error function with affine residuals in one parameter: the observation `(s, c)` has
the residual `s·p + c` and the Jacobian entry `s`; both overloads succeed. -/
def affineFunction (R : Nat) : IErrorFunctionDiff R 1 2 where
  EvaluateJ := fun pts p => (true, fun i => pts i 0 * p 0 + pts i 1, fun i _ => pts i 0)
  Evaluate := fun pts p => (true, fun i => pts i 0 * p 0 + pts i 1)

/-- A solver for the residual `1 - p` (the observation `(-1, 1)` of `affineFunction`),
started at `p = 0`, with both damping members `1`, growth multiplier `2` and one iteration. -/
def mirrorSolver : LevenbergMarquardt 1 1 2 :=
  LevenbergMarquardt.new ⟨1, 1, 2, 1⟩ (fun _ => 0) (affineFunction 1) !![-1, 1]

/-- A solver for the two residuals `p - 2` and `-3·p + 1`, started at `p = 0`, with both
damping members `1`, growth multiplier `2` and one iteration. -/
def negativeSumSolver : LevenbergMarquardt 2 1 2 :=
  LevenbergMarquardt.new ⟨1, 1, 2, 1⟩ (fun _ => 0) (affineFunction 2) !![1, -2; -3, 1]

/-- Positive definiteness of a square matrix, as a quadratic form. -/
def PositiveDefinite {P : Nat} (A : Mat P P) : Prop :=
  ∀ x : Vec P, x ≠ 0 → 0 < Matrix.dotProduct x (A.mulVec x)

/-- The object after `j` calls of `iter`, each made on the object the call before it left,
when all of them return and report success; `none` otherwise. -/
def afterCalls {R P D : Nat}
    (iter : LevenbergMarquardt R P D → Option (Bool × LevenbergMarquardt R P D)) :
    Nat → LevenbergMarquardt R P D → Option (LevenbergMarquardt R P D)
  | 0, self => some self
  | j + 1, self =>
    match iter self with
    | some (true, self1) => afterCalls iter j self1
    | _ => none

/-- The candidate of lines 57 to 58 and 78 to 79, written out: the solve of
`(JᵗJ + λ·diag(JᵗJ))·Δ = Jᵗ·E0` plus the current parameters, with `J` and `E0` the outputs of
the four-argument overload at the current parameters and `λ` the member
`LevenbergMarquardtLambda`. -/
def trialCandidate {R P D : Nat} (qrSolve : Mat P P → Vec P → Vec P)
    (self : LevenbergMarquardt R P D) : Vec P :=
  qrSolve
      ((self._Function.EvaluateJ self._DataPoints self._CurrentParams).2.2.transpose *
          (self._Function.EvaluateJ self._DataPoints self._CurrentParams).2.2 +
        self._Options.LevenbergMarquardtLambda •
          Matrix.diagonal (Matrix.diag
            ((self._Function.EvaluateJ self._DataPoints self._CurrentParams).2.2.transpose *
              (self._Function.EvaluateJ self._DataPoints self._CurrentParams).2.2)))
      ((self._Function.EvaluateJ self._DataPoints self._CurrentParams).2.2.transpose.mulVec
        (self._Function.EvaluateJ self._DataPoints self._CurrentParams).2.1) +
    self._CurrentParams

/-- The residuals that the three-argument overload gives at `trialCandidate`. -/
def trialResiduals {R P D : Nat} (qrSolve : Mat P P → Vec P → Vec P)
    (self : LevenbergMarquardt R P D) : Vec R :=
  (self._Function.Evaluate self._DataPoints (trialCandidate qrSolve self)).2

/-- Lines 75 to 82 with the result of the compound assignment of line 75 rounded by `rnd`,
the rounding of `_Scalar` to its representable values; every other operation is exact. With
the identity for `rnd` this is `retryBody`. -/
def retryBodyRounded {R P D : Nat} (rnd : ℚ → ℚ) (qrSolve : Mat P P → Vec P → Vec P)
    (f : IterateFrame R P) (t : TrialState R P D) : TrialState R P D :=
  let self1 : LevenbergMarquardt R P D :=
    { t.self with
      _Options :=
        { t.self._Options with
          LevenbergMarquartLambda := rnd (t.self._Options.LevenbergMarquartLambda * f.v) } }
  let P1mP0 : Vec P :=
    qrSolve (f.JtJ + self1._Options.LevenbergMarquardtLambda • f.JtJdiag) f.JtEp0
  let P1 : Vec P := P1mP0 + self1._CurrentParams
  let Ep1 : Vec R := (self1._Function.Evaluate self1._DataPoints P1).2
  { self := self1, P1mP0 := P1mP0, P1 := P1, Ep1 := Ep1
    Ep1Sum := Matrix.dotProduct Ep1 Ep1
    evals := t.evals ++ [EvalCall.residualsOnly P1] }

/-- Lines 72 to 84 over `retryBodyRounded`, with fuel. -/
def retryLoopRounded {R P D : Nat} (rnd : ℚ → ℚ) (qrSolve : Mat P P → Vec P → Vec P)
    (f : IterateFrame R P) : Nat → TrialState R P D → Option (TrialState R P D)
  | fuel, t =>
    if retryCond f t then
      match fuel with
      | 0 => none
      | fuel + 1 => retryLoopRounded rnd qrSolve f fuel (retryBodyRounded rnd qrSolve f t)
    else some t

/-- Lines 86 to 88 with the result of the compound assignment of line 86 rounded by `rnd`. -/
def iterateExitRounded {R P D : Nat} (rnd : ℚ → ℚ) (f : IterateFrame R P)
    (t : TrialState R P D) : IterateResult R P D :=
  { ret := true
    self :=
      { t.self with
        _Options :=
          { t.self._Options with
            LevenbergMarquartLambda := rnd (t.self._Options.LevenbergMarquartLambda / f.v) } }
    frame := f, P1mP0 := t.P1mP0, P1 := t.P1, Ep1 := t.Ep1, Ep1Sum := t.Ep1Sum
    evals := t.evals }

/-- Lines 42 to 89 with the two compound assignments of the damping member rounded by
`rnd`. -/
def IterateRounded {R P D : Nat} (rnd : ℚ → ℚ) (qrSolve : Mat P P → Vec P → Vec P)
    (fuel : Nat) (self : LevenbergMarquardt R P D) : Option (IterateResult R P D) :=
  let f := iterateFrame self
  match retryLoopRounded rnd qrSolve f fuel (firstTrial qrSolve self) with
  | none => none
  | some t => some (iterateExitRounded rnd f t)

section Lemmas

variable {R P D : Nat}

/-- The loop without fuel: it returns only when its condition is already false. -/
theorem retryLoop_zero (qrSolve : Mat P P → Vec P → Vec P) (f : IterateFrame R P)
    (t : TrialState R P D) :
    retryLoop qrSolve f 0 t = if retryCond f t then none else some t := by
  unfold retryLoop
  rfl

/-- One unfolding of the loop. -/
theorem retryLoop_succ (qrSolve : Mat P P → Vec P → Vec P) (f : IterateFrame R P)
    (fuel : Nat) (t : TrialState R P D) :
    retryLoop qrSolve f (fuel + 1) t =
      if retryCond f t then retryLoop qrSolve f fuel (retryBody qrSolve f t) else some t := by
  conv_lhs => unfold retryLoop

/-- The loop returns exactly the first state, within the fuel, at which its condition fails. -/
theorem retryLoop_eq_some_iff (qrSolve : Mat P P → Vec P → Vec P) (f : IterateFrame R P)
    (fuel : Nat) (t t1 : TrialState R P D) :
    retryLoop qrSolve f fuel t = some t1 ↔
      ∃ k, k ≤ fuel ∧ t1 = (retryBody qrSolve f)^[k] t ∧
        (∀ j, j < k → retryCond f ((retryBody qrSolve f)^[j] t) = true) ∧
        retryCond f ((retryBody qrSolve f)^[k] t) = false := by
  induction fuel generalizing t with
  | zero =>
    rw [retryLoop_zero]
    constructor
    · intro h
      by_cases hc : retryCond f t = true
      · simp [hc] at h
      · simp only [hc] at h
        refine ⟨0, le_refl _, ?_, ?_, ?_⟩
        · simpa using h.symm
        · intro j hj; omega
        · simpa using hc
    · rintro ⟨k, hk, rfl, -, hc⟩
      obtain rfl : k = 0 := by omega
      simp at hc ⊢
      simp [hc]
  | succ n ih =>
    rw [retryLoop_succ]
    by_cases hc : retryCond f t = true
    · simp only [hc, if_true]
      rw [ih]
      constructor
      · rintro ⟨k, hk, rfl, hall, hlast⟩
        refine ⟨k + 1, by omega, by simp [Function.iterate_succ_apply], ?_, ?_⟩
        · intro j hj
          cases j with
          | zero => simpa using hc
          | succ j =>
            rw [Function.iterate_succ_apply]
            exact hall j (by omega)
        · rw [Function.iterate_succ_apply]; exact hlast
      · rintro ⟨k, hk, rfl, hall, hlast⟩
        cases k with
        | zero => simp [hc] at hlast
        | succ k =>
          refine ⟨k, by omega, by simp [Function.iterate_succ_apply], ?_, ?_⟩
          · intro j hj
            have := hall (j + 1) (by omega)
            rwa [Function.iterate_succ_apply] at this
          · rwa [Function.iterate_succ_apply] at hlast
    · simp only [hc]
      constructor
      · intro h
        refine ⟨0, by omega, ?_, ?_, ?_⟩
        · simpa using h.symm
        · intro j hj; omega
        · simpa using hc
      · rintro ⟨k, hk, rfl, hall, hlast⟩
        cases k with
        | zero => simp
        | succ k =>
          have := hall 0 (by omega)
          simp at this
          exact absurd this hc


/-- Before any pass through the body the loop is at the first trial. -/
theorem trialAt_zero (qrSolve : Mat P P → Vec P → Vec P) (self : LevenbergMarquardt R P D) :
    trialAt qrSolve self 0 = firstTrial qrSolve self := rfl

/-- One more pass through the body. -/
theorem trialAt_succ (qrSolve : Mat P P → Vec P → Vec P) (self : LevenbergMarquardt R P D)
    (k : Nat) :
    trialAt qrSolve self (k + 1) =
      retryBody qrSolve (iterateFrame self) (trialAt qrSolve self k) := by
  unfold trialAt
  rw [Function.iterate_succ_apply']

/-- The object after `k` passes: only the member `LevenbergMarquartLambda` has changed, to
its value at entry times `v^k`. -/
theorem trialAt_self (qrSolve : Mat P P → Vec P → Vec P) (self : LevenbergMarquardt R P D)
    (k : Nat) :
    (trialAt qrSolve self k).self =
      { self with
        _Options :=
          { self._Options with
            LevenbergMarquartLambda :=
              self._Options.LevenbergMarquartLambda * self._Options.LevenbergMarquardtV ^ k } } := by
  induction k with
  | zero => simp [trialAt_zero, firstTrial]
  | succ k ih =>
    rw [trialAt_succ]
    simp only [retryBody, ih, iterateFrame, pow_succ, mul_assoc]

/-- The damping factor that the solve reads, `LevenbergMarquardtLambda`, is at every trial
what it was at entry: no statement assigns it. -/
theorem trialAt_lambda (qrSolve : Mat P P → Vec P → Vec P) (self : LevenbergMarquardt R P D)
    (k : Nat) :
    (trialAt qrSolve self k).self._Options.LevenbergMarquardtLambda =
      self._Options.LevenbergMarquardtLambda := by
  rw [trialAt_self]

/-- The member that line 75 multiplies, `LevenbergMarquartLambda`, at the `k`-th trial. -/
theorem trialAt_written (qrSolve : Mat P P → Vec P → Vec P) (self : LevenbergMarquardt R P D)
    (k : Nat) :
    (trialAt qrSolve self k).self._Options.LevenbergMarquartLambda =
      self._Options.LevenbergMarquartLambda * self._Options.LevenbergMarquardtV ^ k := by
  rw [trialAt_self]

/-- The step of the `k`-th trial: the solve of the system damped by the factor
`LevenbergMarquardtLambda` of the entry, at the first trial and at every retry. -/
theorem trialAt_P1mP0 (qrSolve : Mat P P → Vec P → Vec P) (self : LevenbergMarquardt R P D)
    (k : Nat) :
    (trialAt qrSolve self k).P1mP0 =
      qrSolve ((iterateFrame self).JtJ +
        self._Options.LevenbergMarquardtLambda • (iterateFrame self).JtJdiag)
        (iterateFrame self).JtEp0 := by
  cases k with
  | zero => simp [trialAt_zero, firstTrial]
  | succ k =>
    rw [trialAt_succ]
    simp only [retryBody, trialAt_self]

/-- The candidate of the `k`-th trial is its step plus `_CurrentParams`. -/
theorem trialAt_P1 (qrSolve : Mat P P → Vec P → Vec P) (self : LevenbergMarquardt R P D)
    (k : Nat) :
    (trialAt qrSolve self k).P1 = (trialAt qrSolve self k).P1mP0 + self._CurrentParams := by
  cases k with
  | zero => simp [trialAt_zero, firstTrial]
  | succ k =>
    rw [trialAt_succ]
    simp only [retryBody, trialAt_self]

/-- The residuals of the `k`-th trial are those of the three-argument overload at its
candidate. -/
theorem trialAt_Ep1 (qrSolve : Mat P P → Vec P → Vec P) (self : LevenbergMarquardt R P D)
    (k : Nat) :
    (trialAt qrSolve self k).Ep1 =
      (self._Function.Evaluate self._DataPoints (trialAt qrSolve self k).P1).2 := by
  cases k with
  | zero => simp [trialAt_zero, firstTrial]
  | succ k =>
    rw [trialAt_succ]
    simp only [retryBody, trialAt_self]

/-- At the first trial `Ep1Sum` is the plain element sum (line 68). -/
theorem trialAt_Ep1Sum_zero (qrSolve : Mat P P → Vec P → Vec P)
    (self : LevenbergMarquardt R P D) :
    (trialAt qrSolve self 0).Ep1Sum = ∑ i, (trialAt qrSolve self 0).Ep1 i := by
  simp [trialAt_zero, firstTrial]

/-- At every retry `Ep1Sum` is the quadratic form (line 82). -/
theorem trialAt_Ep1Sum_succ (qrSolve : Mat P P → Vec P → Vec P)
    (self : LevenbergMarquardt R P D) (k : Nat) :
    (trialAt qrSolve self (k + 1)).Ep1Sum =
      Matrix.dotProduct (trialAt qrSolve self (k + 1)).Ep1 (trialAt qrSolve self (k + 1)).Ep1 := by
  rw [trialAt_succ]
  simp only [retryBody]

/-- A call of `Iterate` returns exactly when, within the fuel, some trial is accepted; it then
returns from the first accepted trial. -/
theorem Iterate_eq_some_iff (qrSolve : Mat P P → Vec P → Vec P) (fuel : Nat)
    (self : LevenbergMarquardt R P D) (r : IterateResult R P D) :
    Iterate qrSolve fuel self = some r ↔
      ∃ k, k ≤ fuel ∧ r = iterateExit (iterateFrame self) (trialAt qrSolve self k) ∧
        (∀ j, j < k → retryCond (iterateFrame self) (trialAt qrSolve self j) = true) ∧
        retryCond (iterateFrame self) (trialAt qrSolve self k) = false := by
  unfold Iterate
  simp only
  constructor
  · intro h
    cases hl : retryLoop qrSolve (iterateFrame self) fuel (firstTrial qrSolve self) with
    | none => simp [hl] at h
    | some t =>
      simp only [hl, Option.some.injEq] at h
      obtain ⟨k, hk, rfl, hall, hlast⟩ := (retryLoop_eq_some_iff _ _ _ _ _).1 hl
      exact ⟨k, hk, h.symm, hall, hlast⟩
  · rintro ⟨k, hk, rfl, hall, hlast⟩
    have hl : retryLoop qrSolve (iterateFrame self) fuel (firstTrial qrSolve self) =
        some (trialAt qrSolve self k) :=
      (retryLoop_eq_some_iff _ _ _ _ _).2 ⟨k, hk, rfl, hall, hlast⟩
    simp [hl]

/-- The object after a returning `Iterate` call, when the `k`-th trial is the accepted one. -/
theorem iterateExit_self (qrSolve : Mat P P → Vec P → Vec P) (self : LevenbergMarquardt R P D)
    (k : Nat) :
    (iterateExit (iterateFrame self) (trialAt qrSolve self k)).self =
      { self with
        _Options :=
          { self._Options with
            LevenbergMarquartLambda :=
              self._Options.LevenbergMarquartLambda * self._Options.LevenbergMarquardtV ^ k /
                self._Options.LevenbergMarquardtV } } := by
  simp only [iterateExit, trialAt_self, iterateFrame]


/-- The loop of `Minimize` without fuel. -/
theorem MinimizeLoop_zero
    (iter : LevenbergMarquardt R P D → Option (Bool × LevenbergMarquardt R P D))
    (i : Nat) (self : LevenbergMarquardt R P D) (calls : List Bool) :
    MinimizeLoop iter 0 i self calls =
      if i < self._Options.MaxIterations then none
      else some { ret := true, self := self, calls := calls } := by
  unfold MinimizeLoop
  rfl

/-- One unfolding of the loop of `Minimize`. -/
theorem MinimizeLoop_succ
    (iter : LevenbergMarquardt R P D → Option (Bool × LevenbergMarquardt R P D))
    (fuel i : Nat) (self : LevenbergMarquardt R P D) (calls : List Bool) :
    MinimizeLoop iter (fuel + 1) i self calls =
      if i < self._Options.MaxIterations then
        match iter self with
        | none => none
        | some (result, self1) =>
          if !result then some { ret := result, self := self1, calls := calls ++ [result] }
          else MinimizeLoop iter fuel (i + 1) self1 (calls ++ [result])
      else some { ret := true, self := self, calls := calls } := by
  conv_lhs => unfold MinimizeLoop

/-- A property of the object that every `Iterate` call keeps is kept by the loop of
`Minimize`. -/
theorem MinimizeLoop_invariant
    (iter : LevenbergMarquardt R P D → Option (Bool × LevenbergMarquardt R P D))
    (Inv : LevenbergMarquardt R P D → Prop)
    (hiter : ∀ s b s1, Inv s → iter s = some (b, s1) → Inv s1)
    (fuel i : Nat) (self : LevenbergMarquardt R P D) (calls : List Bool)
    (r : MinimizeResult R P D) (hs : Inv self)
    (h : MinimizeLoop iter fuel i self calls = some r) : Inv r.self := by
  induction fuel generalizing i self calls with
  | zero =>
    rw [MinimizeLoop_zero] at h
    split at h
    · simp at h
    · simp only [Option.some.injEq] at h
      rw [← h]; exact hs
  | succ n ih =>
    rw [MinimizeLoop_succ] at h
    split at h
    · cases hi : iter self with
      | none => simp [hi] at h
      | some p =>
        obtain ⟨b, s1⟩ := p
        simp only [hi] at h
        have hs1 := hiter self b s1 hs hi
        cases b with
        | false =>
          simp only [Bool.not_false, if_true, Option.some.injEq] at h
          rw [← h]; exact hs1
        | true =>
          simp only [Bool.not_true] at h
          exact ih _ _ _ hs1 h
    · simp only [Option.some.injEq] at h
      rw [← h]; exact hs

/-- When every `Iterate` call reports success, so does the loop of `Minimize`. -/
theorem MinimizeLoop_ret_of_success
    (iter : LevenbergMarquardt R P D → Option (Bool × LevenbergMarquardt R P D))
    (hiter : ∀ s b s1, iter s = some (b, s1) → b = true)
    (fuel i : Nat) (self : LevenbergMarquardt R P D) (calls : List Bool)
    (r : MinimizeResult R P D)
    (h : MinimizeLoop iter fuel i self calls = some r) : r.ret = true := by
  induction fuel generalizing i self calls with
  | zero =>
    rw [MinimizeLoop_zero] at h
    split at h
    · simp at h
    · simp only [Option.some.injEq] at h
      rw [← h]
  | succ n ih =>
    rw [MinimizeLoop_succ] at h
    split at h
    · cases hi : iter self with
      | none => simp [hi] at h
      | some p =>
        obtain ⟨b, s1⟩ := p
        simp only [hi] at h
        obtain rfl := hiter self b s1 hi
        simp only [Bool.not_true] at h
        exact ih _ _ _ h
    · simp only [Option.some.injEq] at h
      rw [← h]

/-- The record of calls left by the loop of `Minimize`, started at counter `i` after `i`
successful calls. -/
theorem MinimizeLoop_calls
    (iter : LevenbergMarquardt R P D → Option (Bool × LevenbergMarquardt R P D))
    (hmax : ∀ s b s1, iter s = some (b, s1) →
      s1._Options.MaxIterations = s._Options.MaxIterations)
    (fuel i : Nat) (self : LevenbergMarquardt R P D) (r : MinimizeResult R P D)
    (hi : i ≤ self._Options.MaxIterations)
    (h : MinimizeLoop iter fuel i self (List.replicate i true) = some r) :
    (r.ret = true ∧ r.calls = List.replicate self._Options.MaxIterations true) ∨
      (r.ret = false ∧ ∃ j, i ≤ j ∧ j < self._Options.MaxIterations ∧
        r.calls = List.replicate j true ++ [false]) := by
  induction fuel generalizing i self with
  | zero =>
    rw [MinimizeLoop_zero] at h
    split at h
    · simp at h
    · simp only [Option.some.injEq] at h
      obtain rfl : i = self._Options.MaxIterations := by omega
      left
      rw [← h]
      exact ⟨rfl, rfl⟩
  | succ n ih =>
    rw [MinimizeLoop_succ] at h
    split at h
    · rename_i hlt
      cases hc : iter self with
      | none => simp [hc] at h
      | some p =>
        obtain ⟨b, s1⟩ := p
        simp only [hc] at h
        have hm := hmax self b s1 hc
        cases b with
        | false =>
          simp only [Bool.not_false, if_true, Option.some.injEq] at h
          right
          rw [← h]
          exact ⟨rfl, i, le_refl _, hlt, rfl⟩
        | true =>
          simp only [Bool.not_true] at h
          have hrep : List.replicate i true ++ [true] = List.replicate (i + 1) true := by
            rw [List.replicate_succ']
          rw [hrep] at h
          rcases ih (i + 1) s1 (by omega) h with h1 | ⟨h1, j, hj1, hj2, hj3⟩
          · left; rw [← hm]; exact h1
          · right; exact ⟨h1, j, by omega, by omega, hj3⟩
    · simp only [Option.some.injEq] at h
      obtain rfl : i = self._Options.MaxIterations := by omega
      left
      rw [← h]
      exact ⟨rfl, rfl⟩

/-- With an `Iterate` that always returns, the loop of `Minimize` returns once the fuel
covers the remaining passes. -/
theorem MinimizeLoop_returns
    (iter : LevenbergMarquardt R P D → Option (Bool × LevenbergMarquardt R P D))
    (hmax : ∀ s b s1, iter s = some (b, s1) →
      s1._Options.MaxIterations = s._Options.MaxIterations)
    (hret : ∀ s, ∃ p, iter s = some p)
    (fuel i : Nat) (self : LevenbergMarquardt R P D) (calls : List Bool)
    (hfuel : self._Options.MaxIterations ≤ i + fuel) :
    ∃ r, MinimizeLoop iter fuel i self calls = some r := by
  induction fuel generalizing i self calls with
  | zero =>
    rw [MinimizeLoop_zero]
    rw [if_neg (by omega)]
    exact ⟨_, rfl⟩
  | succ n ih =>
    rw [MinimizeLoop_succ]
    split
    · obtain ⟨⟨b, s1⟩, hc⟩ := hret self
      have hm := hmax self b s1 hc
      simp only [hc]
      cases b with
      | false => exact ⟨_, rfl⟩
      | true =>
        simp only [Bool.not_true]
        exact ih (i + 1) s1 _ (by omega)
    · exact ⟨_, rfl⟩

/-- A returning `Iterate` call leaves `_CurrentParams` as it was: the function never assigns
it. -/
theorem Iterate_CurrentParams (qrSolve : Mat P P → Vec P → Vec P) (fuel : Nat)
    (self : LevenbergMarquardt R P D) (r : IterateResult R P D)
    (h : Iterate qrSolve fuel self = some r) :
    r.self._CurrentParams = self._CurrentParams := by
  obtain ⟨k, -, rfl, -, -⟩ := (Iterate_eq_some_iff _ _ _ _).1 h
  rw [iterateExit_self]

/-- A returning `Iterate` call returns `true` (line 88). -/
theorem Iterate_ret (qrSolve : Mat P P → Vec P → Vec P) (fuel : Nat)
    (self : LevenbergMarquardt R P D) (r : IterateResult R P D)
    (h : Iterate qrSolve fuel self = some r) : r.ret = true := by
  obtain ⟨k, -, rfl, -, -⟩ := (Iterate_eq_some_iff _ _ _ _).1 h
  rfl

/-- What `Minimize` sees of an `Iterate` call comes from a returning call. -/
theorem IterateCall_eq_some (qrSolve : Mat P P → Vec P → Vec P) (fuel : Nat)
    (self s1 : LevenbergMarquardt R P D) (b : Bool)
    (h : IterateCall qrSolve fuel self = some (b, s1)) :
    ∃ r, Iterate qrSolve fuel self = some r ∧ r.ret = b ∧ r.self = s1 := by
  unfold IterateCall at h
  cases hi : Iterate qrSolve fuel self with
  | none => simp [hi] at h
  | some r =>
    simp only [hi, Option.map_some', Option.some.injEq, Prod.mk.injEq] at h
    exact ⟨r, rfl, h.1, h.2⟩

/-- A returning `Minimize` call leaves `_CurrentParams` as it was. -/
theorem Minimize_CurrentParams (qrSolve : Mat P P → Vec P → Vec P) (fuel : Nat)
    (self : LevenbergMarquardt R P D) (r : MinimizeResult R P D)
    (h : Minimize qrSolve fuel self = some r) :
    r.self._CurrentParams = self._CurrentParams := by
  refine MinimizeLoop_invariant (IterateCall qrSolve fuel)
    (fun s => s._CurrentParams = self._CurrentParams) ?_ fuel 0 self [] r rfl h
  intro s b s1 hs hc
  obtain ⟨r1, hr1, -, rfl⟩ := IterateCall_eq_some _ _ _ _ _ hc
  rw [Iterate_CurrentParams _ _ _ _ hr1, hs]

/-- The residual sum of `offsetSolver` at its current parameters. -/
theorem offsetSolver_Ep0Sum (y p0 : ℚ) (n : Nat) :
    (iterateFrame (offsetSolver y p0 n)).Ep0Sum = p0 - y := by
  simp [iterateFrame, offsetSolver, LevenbergMarquardt.new, offsetFunction]

/-- The residual vector of `offsetSolver` at its current parameters. -/
theorem offsetSolver_Ep0 (y p0 : ℚ) (n : Nat) :
    (iterateFrame (offsetSolver y p0 n)).Ep0 = fun _ => p0 - y := by
  simp [iterateFrame, offsetSolver, LevenbergMarquardt.new, offsetFunction]

/-- The candidate of the `k`-th trial of `offsetSolver` under the rule of Cramer. -/
theorem offsetSolver_P1 (y p0 : ℚ) (n k : Nat) :
    (trialAt exactSolve (offsetSolver y p0 n) k).P1 = fun _ => (p0 - y) / 2 + p0 := by
  funext i
  simp [trialAt_P1, trialAt_P1mP0, iterateFrame, offsetSolver, LevenbergMarquardt.new,
    offsetFunction, exactSolve, Matrix.det_unique, Matrix.adjugate_fin_one, Matrix.mulVec,
    Matrix.dotProduct, Matrix.mul_apply, Matrix.diag]
  ring

/-- The residual vector of `offsetSolver` at the candidate of the `k`-th trial. -/
theorem offsetSolver_Ep1 (y p0 : ℚ) (n k : Nat) :
    (trialAt exactSolve (offsetSolver y p0 n) k).Ep1 = fun _ => (p0 - y) / 2 + p0 - y := by
  rw [trialAt_Ep1, offsetSolver_P1]
  simp [offsetSolver, LevenbergMarquardt.new, offsetFunction]

/-- The loop condition of `offsetSolver` at the first trial. -/
theorem offsetSolver_retryCond_zero (y p0 : ℚ) (n : Nat) :
    retryCond (iterateFrame (offsetSolver y p0 n)) (trialAt exactSolve (offsetSolver y p0 n) 0) =
      decide ((p0 - y) / 2 + p0 - y > p0 - y) := by
  unfold retryCond
  rw [trialAt_Ep1Sum_zero, offsetSolver_Ep1, offsetSolver_Ep0Sum]
  norm_num

/-- The loop condition of `offsetSolver` at a retry. -/
theorem offsetSolver_retryCond_succ (y p0 : ℚ) (n k : Nat) :
    retryCond (iterateFrame (offsetSolver y p0 n))
        (trialAt exactSolve (offsetSolver y p0 n) (k + 1)) =
      decide (((p0 - y) / 2 + p0 - y) * ((p0 - y) / 2 + p0 - y) > p0 - y) := by
  unfold retryCond
  rw [trialAt_Ep1Sum_succ, offsetSolver_Ep1, offsetSolver_Ep0Sum]
  simp [Matrix.dotProduct]

/-- The residual sum of `lineSolver` at its current parameters. -/
theorem lineSolver_Ep0Sum (n : Nat) : (iterateFrame (lineSolver n)).Ep0Sum = -1 := by
  simp [iterateFrame, lineSolver, LevenbergMarquardt.new, lineFunction, Fin.sum_univ_two]

/-- The first candidate of `lineSolver` under the rule of Cramer. -/
theorem lineSolver_P1 (n : Nat) :
    (trialAt exactSolve (lineSolver n) 0).P1 = ![-3 / 7, -1 / 7] := by
  funext i
  fin_cases i <;>
    simp [trialAt_P1, trialAt_P1mP0, iterateFrame, lineSolver, LevenbergMarquardt.new,
      lineFunction, exactSolve, Matrix.det_fin_two, Matrix.adjugate_fin_two, Matrix.mulVec,
      Matrix.dotProduct, Matrix.mul_apply, Matrix.diag, Fin.sum_univ_two, Matrix.vecMul,
      Matrix.transpose_apply] <;>
    norm_num

/-- The first candidate of `lineSolver` is accepted. -/
theorem lineSolver_retryCond (n : Nat) :
    retryCond (iterateFrame (lineSolver n)) (trialAt exactSolve (lineSolver n) 0) = false := by
  unfold retryCond
  rw [trialAt_Ep1Sum_zero, trialAt_Ep1, lineSolver_P1, lineSolver_Ep0Sum]
  simp [lineSolver, LevenbergMarquardt.new, lineFunction, Fin.sum_univ_two]
  norm_num

/-- The object after a returning `Iterate` call: only the member `LevenbergMarquartLambda`
has changed. -/
theorem Iterate_self (qrSolve : Mat P P → Vec P → Vec P) (fuel : Nat)
    (self : LevenbergMarquardt R P D) (r : IterateResult R P D)
    (h : Iterate qrSolve fuel self = some r) :
    ∃ k, r.self =
      { self with
        _Options :=
          { self._Options with
            LevenbergMarquartLambda :=
              self._Options.LevenbergMarquartLambda * self._Options.LevenbergMarquardtV ^ k /
                self._Options.LevenbergMarquardtV } } := by
  obtain ⟨k, -, rfl, -, -⟩ := (Iterate_eq_some_iff _ _ _ _).1 h
  exact ⟨k, iterateExit_self _ _ _⟩

/-- On the residual `p` started at `p = 1/4`, the first candidate is rejected and the second
is accepted. -/
theorem offsetSolver_Iterate_retry (n : Nat) :
    Iterate exactSolve 1 (offsetSolver 0 (1 / 4) n) =
      some (iterateExit (iterateFrame (offsetSolver 0 (1 / 4) n))
        (trialAt exactSolve (offsetSolver 0 (1 / 4) n) 1)) := by
  rw [Iterate_eq_some_iff]
  refine ⟨1, le_refl _, rfl, ?_, ?_⟩
  · intro j hj
    obtain rfl : j = 0 := by omega
    rw [offsetSolver_retryCond_zero]; norm_num
  · rw [offsetSolver_retryCond_succ]; norm_num

/-- A returning `Iterate` call leaves `MaxIterations` as it was. -/
theorem IterateCall_MaxIterations (qrSolve : Mat P P → Vec P → Vec P) (fuel : Nat)
    (s : LevenbergMarquardt R P D) (b : Bool) (s1 : LevenbergMarquardt R P D)
    (h : IterateCall qrSolve fuel s = some (b, s1)) :
    s1._Options.MaxIterations = s._Options.MaxIterations := by
  obtain ⟨r, hr, -, rfl⟩ := IterateCall_eq_some _ _ _ _ _ h
  obtain ⟨k, hk⟩ := Iterate_self _ _ _ _ hr
  rw [hk]

/-- A returning `Iterate` call returns `true`. -/
theorem IterateCall_ret (qrSolve : Mat P P → Vec P → Vec P) (fuel : Nat)
    (s : LevenbergMarquardt R P D) (b : Bool) (s1 : LevenbergMarquardt R P D)
    (h : IterateCall qrSolve fuel s = some (b, s1)) : b = true := by
  obtain ⟨r, hr, rfl, -⟩ := IterateCall_eq_some _ _ _ _ _ h
  exact Iterate_ret _ _ _ _ hr

/-- With an iteration cap of one, `Minimize` is one `Iterate` call. -/
theorem Minimize_one (qrSolve : Mat P P → Vec P → Vec P) (fuel : Nat)
    (self : LevenbergMarquardt R P D) (r : IterateResult R P D)
    (hmax : self._Options.MaxIterations = 1)
    (h : Iterate qrSolve (fuel + 1) self = some r) :
    Minimize qrSolve (fuel + 1) self = some { ret := true, self := r.self, calls := [true] } := by
  have hc : IterateCall qrSolve (fuel + 1) self = some (true, r.self) := by
    simp [IterateCall, h, Iterate_ret _ _ _ _ h]
  have hm := IterateCall_MaxIterations _ _ _ _ _ hc
  unfold Minimize MinimizeWith
  rw [MinimizeLoop_succ, if_pos (by omega)]
  simp only [hc, Bool.not_true, Bool.false_eq_true, if_false, List.nil_append]
  cases fuel with
  | zero => rw [MinimizeLoop_zero, if_neg (by omega)]
  | succ n => rw [MinimizeLoop_succ, if_neg (by omega)]

/-- On `failingSolver` the first candidate is accepted, with any fuel. -/
theorem failingSolver_Iterate (fuel : Nat) :
    Iterate exactSolve fuel failingSolver =
      some (iterateExit (iterateFrame failingSolver) (trialAt exactSolve failingSolver 0)) := by
  rw [Iterate_eq_some_iff]
  refine ⟨0, Nat.zero_le _, rfl, ?_, ?_⟩
  · intro j hj; omega
  · simp [retryCond, trialAt_Ep1Sum_zero, trialAt_Ep1, iterateFrame, failingSolver,
      LevenbergMarquardt.new, failingFunction]

/-- The rule of Cramer solves every system with a nonzero determinant. -/
theorem exactSolve_exact : SolveExact (exactSolve (P := P)) := by
  intro A b hdet
  unfold exactSolve
  rw [Matrix.mulVec_smul, Matrix.mulVec_mulVec, Matrix.mul_adjugate, Matrix.smul_mulVec_assoc,
    Matrix.one_mulVec, smul_smul, inv_mul_cancel₀ hdet, one_smul]

/-- The rule of Cramer returns the zero vector for a zero right-hand side. -/
theorem exactSolve_zero (A : Mat P P) : exactSolve A 0 = 0 := by
  unfold exactSolve
  rw [Matrix.mulVec_zero, smul_zero]

/-- The calls of the error function made up to the `k`-th trial: one with the Jacobian at
`_CurrentParams`, then one without at the candidate of each trial so far. -/
theorem trialAt_evals (qrSolve : Mat P P → Vec P → Vec P) (self : LevenbergMarquardt R P D)
    (k : Nat) :
    (trialAt qrSolve self k).evals =
      EvalCall.withJacobian self._CurrentParams ::
        (List.range (k + 1)).map fun j => EvalCall.residualsOnly (trialAt qrSolve self j).P1 := by
  induction k with
  | zero =>
    have h1 : List.range (0 + 1) = [0] := rfl
    rw [h1, List.map_singleton, trialAt_zero]
    rfl
  | succ k ih =>
    have hb : (trialAt qrSolve self (k + 1)).evals =
        (trialAt qrSolve self k).evals ++
          [EvalCall.residualsOnly (trialAt qrSolve self (k + 1)).P1] := by
      rw [trialAt_succ]
      simp only [retryBody]
    rw [hb, ih, List.range_succ (k + 1), List.map_append]
    simp

/-- Among the calls recorded at the `k`-th trial, one has the Jacobian and `k + 1` have not. -/
theorem trialAt_evals_count (qrSolve : Mat P P → Vec P → Vec P)
    (self : LevenbergMarquardt R P D) (k : Nat) :
    (trialAt qrSolve self k).evals.countP EvalCall.hasJacobian = 1 ∧
      (trialAt qrSolve self k).evals.countP (fun c => !c.hasJacobian) = k + 1 := by
  rw [trialAt_evals]
  constructor
  · rw [List.countP_cons_of_pos _ _ (by rfl), List.countP_map]
    have : List.countP (EvalCall.hasJacobian ∘ fun j =>
        EvalCall.residualsOnly (trialAt qrSolve self j).P1) (List.range (k + 1)) = 0 := by
      rw [List.countP_eq_zero]
      intro j _
      simp [EvalCall.hasJacobian]
    rw [this]
  · rw [List.countP_cons_of_neg _ _ (by simp [EvalCall.hasJacobian]), List.countP_map]
    have : List.countP ((fun c : EvalCall P => !c.hasJacobian) ∘ fun j =>
        EvalCall.residualsOnly (trialAt qrSolve self j).P1) (List.range (k + 1)) =
          (List.range (k + 1)).length := by
      rw [List.countP_eq_length]
      intro j _
      simp [EvalCall.hasJacobian]
    rw [this, List.length_range]

/-- When every trial is rejected, `Iterate` returns with no amount of fuel. -/
theorem Iterate_eq_none_of_rejected (qrSolve : Mat P P → Vec P → Vec P)
    (self : LevenbergMarquardt R P D)
    (hall : ∀ k, retryCond (iterateFrame self) (trialAt qrSolve self k) = true) (fuel : Nat) :
    Iterate qrSolve fuel self = none := by
  cases hi : Iterate qrSolve fuel self with
  | none => rfl
  | some r =>
    obtain ⟨k, -, -, -, hlast⟩ := (Iterate_eq_some_iff _ _ _ _).1 hi
    rw [hall k] at hlast
    exact absurd hlast (by decide)

/-- The residual sum of `mirrorSolver` at its current parameters. -/
theorem mirrorSolver_Ep0Sum : (iterateFrame mirrorSolver).Ep0Sum = 1 := by
  simp [iterateFrame, mirrorSolver, LevenbergMarquardt.new, affineFunction]

/-- The candidate of the `k`-th trial of `mirrorSolver` under the rule of Cramer. -/
theorem mirrorSolver_P1 (k : Nat) :
    (trialAt exactSolve mirrorSolver k).P1 = fun _ => -1 / 2 := by
  funext i
  simp [trialAt_P1, trialAt_P1mP0, iterateFrame, mirrorSolver, LevenbergMarquardt.new,
    affineFunction, exactSolve, Matrix.det_unique, Matrix.adjugate_fin_one, Matrix.mulVec,
    Matrix.dotProduct, Matrix.mul_apply, Matrix.diag]
  ring

/-- The residual vector of `mirrorSolver` at the candidate of the `k`-th trial. -/
theorem mirrorSolver_Ep1 (k : Nat) :
    (trialAt exactSolve mirrorSolver k).Ep1 = fun _ => 3 / 2 := by
  rw [trialAt_Ep1, mirrorSolver_P1]
  funext i
  simp [mirrorSolver, LevenbergMarquardt.new, affineFunction]
  ring

/-- Every trial of `mirrorSolver` is rejected. -/
theorem mirrorSolver_rejected (k : Nat) :
    retryCond (iterateFrame mirrorSolver) (trialAt exactSolve mirrorSolver k) = true := by
  have hpos : (0 : ℚ) < 1 / (1 + 2 ^ k) := by positivity
  unfold retryCond
  rw [mirrorSolver_Ep0Sum]
  cases k with
  | zero =>
    rw [trialAt_Ep1Sum_zero, mirrorSolver_Ep1]
    norm_num
  | succ k =>
    rw [trialAt_Ep1Sum_succ, mirrorSolver_Ep1]
    simp only [Matrix.dotProduct, Finset.univ_unique, Finset.sum_singleton, gt_iff_lt,
      decide_eq_true_eq]
    nlinarith

/-- A positive definite matrix has a nonzero determinant. -/
theorem PositiveDefinite.det_ne_zero {A : Mat P P} (h : PositiveDefinite A) : A.det ≠ 0 := by
  intro hdet
  obtain ⟨x, hx, hAx⟩ := Matrix.exists_mulVec_eq_zero_iff.2 hdet
  have := h x hx
  rw [hAx, Matrix.dotProduct_zero] at this
  exact lt_irrefl _ this

/-- The solution of a positive definite system has a nonnegative inner product with the
right-hand side, positive when the right-hand side is not zero. -/
theorem PositiveDefinite.dotProduct_solution {A : Mat P P} (h : PositiveDefinite A)
    (g x : Vec P) (hx : A.mulVec x = g) :
    0 ≤ Matrix.dotProduct g x ∧ (g ≠ 0 → 0 < Matrix.dotProduct g x) := by
  have hcomm : Matrix.dotProduct g x = Matrix.dotProduct x (A.mulVec x) := by
    rw [hx, Matrix.dotProduct_comm]
  by_cases hx0 : x = 0
  · have hg : g = 0 := by rw [← hx, hx0, Matrix.mulVec_zero]
    constructor
    · rw [hg, Matrix.zero_dotProduct]
    · intro hne; exact absurd hg hne
  · have hpos := h x hx0
    rw [← hcomm] at hpos
    exact ⟨le_of_lt hpos, fun _ => hpos⟩

/-- With a nonnegative damping factor and a Jacobian of full column rank, the damped matrix
`JᵗJ + λ·diag(JᵗJ)` is positive definite. -/
theorem damped_positiveDefinite (J : Mat R P) (lam : ℚ) (hlam : 0 ≤ lam)
    (hJ : ∀ x : Vec P, J.mulVec x = 0 → x = 0) :
    PositiveDefinite (J.transpose * J + lam • Matrix.diagonal (Matrix.diag (J.transpose * J))) := by
  intro x hx
  have h1 : Matrix.dotProduct x ((J.transpose * J).mulVec x) =
      Matrix.dotProduct (J.mulVec x) (J.mulVec x) := by
    rw [← Matrix.mulVec_mulVec, Matrix.dotProduct_mulVec, Matrix.vecMul_transpose]
  have h2 : 0 < Matrix.dotProduct (J.mulVec x) (J.mulVec x) := by
    have hne : J.mulVec x ≠ 0 := fun h0 => hx (hJ x h0)
    have hnn : 0 ≤ Matrix.dotProduct (J.mulVec x) (J.mulVec x) :=
      Finset.sum_nonneg fun i _ => mul_self_nonneg _
    rcases hnn.lt_or_eq with hlt | heq
    · exact hlt
    · exact absurd (Matrix.dotProduct_self_eq_zero.1 heq.symm) hne
  have h3 : 0 ≤ Matrix.dotProduct x
      ((Matrix.diagonal (Matrix.diag (J.transpose * J))).mulVec x) := by
    unfold Matrix.dotProduct
    refine Finset.sum_nonneg fun i _ => ?_
    rw [Matrix.mulVec_diagonal]
    have hd : 0 ≤ Matrix.diag (J.transpose * J) i := by
      simp only [Matrix.diag, Matrix.mul_apply, Matrix.transpose_apply]
      exact Finset.sum_nonneg fun r _ => mul_self_nonneg _
    have : x i * (Matrix.diag (J.transpose * J) i * x i) =
        Matrix.diag (J.transpose * J) i * (x i * x i) := by ring
    rw [this]
    exact mul_nonneg hd (mul_self_nonneg _)
  rw [Matrix.add_mulVec, Matrix.dotProduct_add, h1, Matrix.smul_mulVec_assoc,
    Matrix.dotProduct_smul, smul_eq_mul]
  have := mul_nonneg hlam h3
  linarith

/-- The residual sum of `negativeSumSolver` at its current parameters. -/
theorem negativeSumSolver_Ep0Sum :
    ∑ i, (negativeSumSolver._Function.EvaluateJ negativeSumSolver._DataPoints
      negativeSumSolver._CurrentParams).2.1 i = -1 := by
  simp [negativeSumSolver, LevenbergMarquardt.new, affineFunction, Fin.sum_univ_two]
  norm_num

/-- The first candidate of `negativeSumSolver` under the rule of Cramer. -/
theorem negativeSumSolver_P1 :
    (trialAt exactSolve negativeSumSolver 0).P1 = fun _ => -1 / 4 := by
  funext i
  simp [trialAt_P1, trialAt_P1mP0, iterateFrame, negativeSumSolver, LevenbergMarquardt.new,
    affineFunction, exactSolve, Matrix.det_unique, Matrix.adjugate_fin_one, Matrix.mulVec,
    Matrix.dotProduct, Matrix.mul_apply, Matrix.diag, Fin.sum_univ_two]
  norm_num

/-- The residual sum of `negativeSumSolver` at its first candidate. -/
theorem negativeSumSolver_Ep1Sum :
    ∑ i, (negativeSumSolver._Function.Evaluate negativeSumSolver._DataPoints
      (trialAt exactSolve negativeSumSolver 0).P1).2 i = -1 / 2 := by
  rw [negativeSumSolver_P1]
  simp [negativeSumSolver, LevenbergMarquardt.new, affineFunction, Fin.sum_univ_two]
  norm_num

/-- No call: the object itself. -/
theorem afterCalls_zero
    (iter : LevenbergMarquardt R P D → Option (Bool × LevenbergMarquardt R P D))
    (self : LevenbergMarquardt R P D) : afterCalls iter 0 self = some self := rfl

/-- A first call that reports success, then `j` more. -/
theorem afterCalls_succ_of_success
    (iter : LevenbergMarquardt R P D → Option (Bool × LevenbergMarquardt R P D))
    (j : Nat) (self self1 : LevenbergMarquardt R P D) (h : iter self = some (true, self1)) :
    afterCalls iter (j + 1) self = afterCalls iter j self1 := by
  conv_lhs => unfold afterCalls
  simp only [h]

/-- What a returning loop of `Minimize` has done, in terms of the calls of `iter`: either the
remaining calls all reported success and it returns success on the object they left, or some
call was the first to report failure and it returns failure on the object that call left. -/
theorem MinimizeLoop_spec
    (iter : LevenbergMarquardt R P D → Option (Bool × LevenbergMarquardt R P D))
    (hmax : ∀ s b s1, iter s = some (b, s1) →
      s1._Options.MaxIterations = s._Options.MaxIterations)
    (fuel i : Nat) (self : LevenbergMarquardt R P D) (calls : List Bool)
    (r : MinimizeResult R P D) (hi : i ≤ self._Options.MaxIterations)
    (h : MinimizeLoop iter fuel i self calls = some r) :
    (r.ret = true ∧ afterCalls iter (self._Options.MaxIterations - i) self = some r.self ∧
        r.calls = calls ++ List.replicate (self._Options.MaxIterations - i) true) ∨
      (r.ret = false ∧ ∃ m s, m < self._Options.MaxIterations - i ∧
        afterCalls iter m self = some s ∧ iter s = some (false, r.self) ∧
        r.calls = calls ++ List.replicate m true ++ [false]) := by
  induction fuel generalizing i self calls with
  | zero =>
    rw [MinimizeLoop_zero] at h
    split at h
    · simp at h
    · simp only [Option.some.injEq] at h
      have h0 : self._Options.MaxIterations - i = 0 := by omega
      left
      rw [← h, h0]
      exact ⟨rfl, rfl, by simp⟩
  | succ n ih =>
    rw [MinimizeLoop_succ] at h
    split at h
    · rename_i hlt
      cases hc : iter self with
      | none => simp [hc] at h
      | some p =>
        obtain ⟨b, s1⟩ := p
        simp only [hc] at h
        have hm := hmax self b s1 hc
        cases b with
        | false =>
          simp only [Bool.not_false, if_true, Option.some.injEq] at h
          right
          rw [← h]
          exact ⟨rfl, 0, self, by omega, rfl, hc, by simp⟩
        | true =>
          simp only [Bool.not_true] at h
          have hsub : self._Options.MaxIterations - i =
              (s1._Options.MaxIterations - (i + 1)) + 1 := by omega
          rcases ih (i + 1) s1 (calls ++ [true]) (by omega) h with
            ⟨h1, h2, h3⟩ | ⟨h1, m, s, hm1, hm2, hm3, hm4⟩
          · left
            refine ⟨h1, ?_, ?_⟩
            · rw [hsub, afterCalls_succ_of_success iter _ self s1 hc]
              exact h2
            · rw [h3, hsub, List.replicate_succ]
              simp
          · right
            refine ⟨h1, m + 1, s, by omega, ?_, hm3, ?_⟩
            · rw [afterCalls_succ_of_success iter _ self s1 hc]
              exact hm2
            · rw [hm4, List.replicate_succ]
              simp
    · simp only [Option.some.injEq] at h
      have h0 : self._Options.MaxIterations - i = 0 := by omega
      left
      rw [← h, h0]
      exact ⟨rfl, rfl, by simp⟩

/-- When the remaining calls of `iter` all report success, the loop of `Minimize` returns
success on the object they leave, once the fuel covers them. -/
theorem MinimizeLoop_of_success
    (iter : LevenbergMarquardt R P D → Option (Bool × LevenbergMarquardt R P D))
    (hmax : ∀ s b s1, iter s = some (b, s1) →
      s1._Options.MaxIterations = s._Options.MaxIterations)
    (fuel i : Nat) (self s : LevenbergMarquardt R P D) (calls : List Bool)
    (hfuel : self._Options.MaxIterations - i ≤ fuel)
    (h : afterCalls iter (self._Options.MaxIterations - i) self = some s) :
    MinimizeLoop iter fuel i self calls =
      some { ret := true, self := s
             calls := calls ++ List.replicate (self._Options.MaxIterations - i) true } := by
  induction fuel generalizing i self calls with
  | zero =>
    have h0 : self._Options.MaxIterations - i = 0 := by omega
    rw [MinimizeLoop_zero, if_neg (by omega)]
    rw [h0, afterCalls_zero] at h
    simp only [Option.some.injEq] at h
    rw [h0, h]
    simp
  | succ n ih =>
    rw [MinimizeLoop_succ]
    by_cases hlt : i < self._Options.MaxIterations
    · rw [if_pos hlt]
      have hsub : self._Options.MaxIterations - i =
          (self._Options.MaxIterations - (i + 1)) + 1 := by omega
      rw [hsub] at h
      conv at h => lhs; unfold afterCalls
      cases hc : iter self with
      | none => simp [hc] at h
      | some p =>
        obtain ⟨b, s1⟩ := p
        cases b with
        | false => simp [hc] at h
        | true =>
          simp only [hc] at h
          have hm := hmax self true s1 hc
          simp only [Bool.not_true, Bool.false_eq_true, if_false]
          rw [← hm] at h
          rw [ih (i + 1) s1 (calls ++ [true]) (by omega) h, hm, hsub]
          simp [List.replicate_succ]
    · rw [if_neg hlt]
      have h0 : self._Options.MaxIterations - i = 0 := by omega
      rw [h0, afterCalls_zero] at h
      simp only [Option.some.injEq] at h
      rw [h0, h]
      simp

/-- When `m` calls of `iter` report success and the next one reports failure, the loop of
`Minimize` returns failure on the object that call leaves, once the fuel covers them. -/
theorem MinimizeLoop_of_failure
    (iter : LevenbergMarquardt R P D → Option (Bool × LevenbergMarquardt R P D))
    (hmax : ∀ s b s1, iter s = some (b, s1) →
      s1._Options.MaxIterations = s._Options.MaxIterations)
    (fuel i m : Nat) (self s s1 : LevenbergMarquardt R P D) (calls : List Bool)
    (hm : m < self._Options.MaxIterations - i) (hfuel : m + 1 ≤ fuel)
    (h : afterCalls iter m self = some s) (hf : iter s = some (false, s1)) :
    MinimizeLoop iter fuel i self calls =
      some { ret := false, self := s1, calls := calls ++ List.replicate m true ++ [false] } := by
  induction m generalizing fuel i self calls with
  | zero =>
    rw [afterCalls_zero] at h
    simp only [Option.some.injEq] at h
    subst h
    obtain ⟨n, rfl⟩ : ∃ n, fuel = n + 1 := ⟨fuel - 1, by omega⟩
    rw [MinimizeLoop_succ, if_pos (by omega)]
    simp [hf]
  | succ m ih =>
    obtain ⟨n, rfl⟩ : ∃ n, fuel = n + 1 := ⟨fuel - 1, by omega⟩
    rw [MinimizeLoop_succ, if_pos (by omega)]
    conv at h => lhs; unfold afterCalls
    cases hc : iter self with
    | none => simp [hc] at h
    | some p =>
      obtain ⟨b, s2⟩ := p
      cases b with
      | false => simp [hc] at h
      | true =>
        simp only [hc] at h
        have hm2 := hmax self true s2 hc
        simp only [Bool.not_true, Bool.false_eq_true, if_false]
        rw [ih n (i + 1) s2 (calls ++ [true]) (by omega) (by omega) h]
        simp [List.replicate_succ]

/-- Every trial of one `Iterate` call has the same candidate: the damping factor that the
solve reads does not change between the trials. -/
theorem trialAt_P1_eq (qrSolve : Mat P P → Vec P → Vec P) (self : LevenbergMarquardt R P D)
    (k : Nat) : (trialAt qrSolve self k).P1 = trialCandidate qrSolve self := by
  rw [trialAt_P1, trialAt_P1mP0]
  rfl

/-- Every trial of one `Iterate` call has the same residual vector. -/
theorem trialAt_Ep1_eq (qrSolve : Mat P P → Vec P → Vec P) (self : LevenbergMarquardt R P D)
    (k : Nat) : (trialAt qrSolve self k).Ep1 = trialResiduals qrSolve self := by
  rw [trialAt_Ep1, trialAt_P1_eq]
  rfl

/-- The loop condition at the first trial, written out. -/
theorem retryCond_zero_eq (qrSolve : Mat P P → Vec P → Vec P)
    (self : LevenbergMarquardt R P D) :
    retryCond (iterateFrame self) (trialAt qrSolve self 0) =
      decide (∑ i, trialResiduals qrSolve self i >
        ∑ i, (self._Function.EvaluateJ self._DataPoints self._CurrentParams).2.1 i) := by
  unfold retryCond
  rw [trialAt_Ep1Sum_zero, trialAt_Ep1_eq]
  rfl

/-- The loop condition at every retry, written out. -/
theorem retryCond_succ_eq (qrSolve : Mat P P → Vec P → Vec P)
    (self : LevenbergMarquardt R P D) (k : Nat) :
    retryCond (iterateFrame self) (trialAt qrSolve self (k + 1)) =
      decide (Matrix.dotProduct (trialResiduals qrSolve self) (trialResiduals qrSolve self) >
        ∑ i, (self._Function.EvaluateJ self._DataPoints self._CurrentParams).2.1 i) := by
  unfold retryCond
  rw [trialAt_Ep1Sum_succ, trialAt_Ep1_eq]
  rfl

/-- A returning `Iterate` call has rejected at most one trial: all retries test the same
candidate with the same test. -/
theorem Iterate_rejected_le_one (qrSolve : Mat P P → Vec P → Vec P)
    (self : LevenbergMarquardt R P D) (k : Nat)
    (hall : ∀ j, j < k → retryCond (iterateFrame self) (trialAt qrSolve self j) = true)
    (hlast : retryCond (iterateFrame self) (trialAt qrSolve self k) = false) : k ≤ 1 := by
  by_contra hk
  have h1 := hall 1 (by omega)
  obtain ⟨n, rfl⟩ : ∃ n, k = n + 1 := ⟨k - 1, by omega⟩
  rw [retryCond_succ_eq] at hlast
  rw [show (1 : Nat) = 0 + 1 from rfl, retryCond_succ_eq] at h1
  rw [h1] at hlast
  exact absurd hlast (by decide)

/-- The record of calls at the `k`-th trial, with the common candidate. -/
theorem trialAt_evals_eq (qrSolve : Mat P P → Vec P → Vec P) (self : LevenbergMarquardt R P D)
    (k : Nat) :
    (trialAt qrSolve self k).evals =
      EvalCall.withJacobian self._CurrentParams ::
        List.replicate (k + 1) (EvalCall.residualsOnly (trialCandidate qrSolve self)) := by
  rw [trialAt_evals]
  congr 1
  rw [List.eq_replicate_iff]
  constructor
  · simp
  · intro c hc
    rw [List.mem_map] at hc
    obtain ⟨j, -, rfl⟩ := hc
    rw [trialAt_P1_eq]

/-- With zero residuals at the current parameters and a solve that returns zero for a zero
right-hand side, the first candidate is the current parameter vector and it is accepted. -/
theorem Iterate_zero_residual (qrSolve : Mat P P → Vec P → Vec P)
    (fuel : Nat) (self : LevenbergMarquardt R P D)
    (hsolve : ∀ A : Mat P P, qrSolve A 0 = 0)
    (hJ : (self._Function.EvaluateJ self._DataPoints self._CurrentParams).2.1 = 0)
    (hE : (self._Function.Evaluate self._DataPoints self._CurrentParams).2 = 0) :
    Iterate qrSolve fuel self = some (iterateExit (iterateFrame self) (trialAt qrSolve self 0)) ∧
      retryCond (iterateFrame self) (trialAt qrSolve self 0) = false ∧
      (trialAt qrSolve self 0).P1mP0 = 0 ∧
      (trialAt qrSolve self 0).P1 = self._CurrentParams := by
  have hrhs : (iterateFrame self).JtEp0 = 0 := by
    simp only [iterateFrame, hJ, Matrix.mulVec_zero]
  have hstep : (trialAt qrSolve self 0).P1mP0 = 0 := by
    rw [trialAt_P1mP0, hrhs, hsolve]
  have hP1 : (trialAt qrSolve self 0).P1 = self._CurrentParams := by
    rw [trialAt_P1, hstep, zero_add]
  have hEp1 : (trialAt qrSolve self 0).Ep1 = 0 := by
    rw [trialAt_Ep1, hP1, hE]
  have hcond : retryCond (iterateFrame self) (trialAt qrSolve self 0) = false := by
    unfold retryCond
    rw [trialAt_Ep1Sum_zero, hEp1]
    simp [iterateFrame, hJ]
  refine ⟨?_, hcond, hstep, hP1⟩
  rw [Iterate_eq_some_iff]
  exact ⟨0, Nat.zero_le _, rfl, fun j hj => absurd hj (Nat.not_lt_zero j), hcond⟩

/-- The residuals of `offsetSolver 1 1 n` at its current parameters are zero, in both
overloads. -/
theorem offsetSolver_zero_residual (n : Nat) :
    ((offsetSolver 1 1 n)._Function.EvaluateJ (offsetSolver 1 1 n)._DataPoints
        (offsetSolver 1 1 n)._CurrentParams).2.1 = 0 ∧
      ((offsetSolver 1 1 n)._Function.Evaluate (offsetSolver 1 1 n)._DataPoints
        (offsetSolver 1 1 n)._CurrentParams).2 = 0 := by
  constructor <;>
  · funext i
    simp [offsetSolver, LevenbergMarquardt.new, offsetFunction]

/-- On the residual `p - 1` started at `p = 0` the first candidate is accepted. -/
theorem offsetSolver_Iterate_first (n fuel : Nat) :
    Iterate exactSolve fuel (offsetSolver 1 0 n) =
      some (iterateExit (iterateFrame (offsetSolver 1 0 n))
        (trialAt exactSolve (offsetSolver 1 0 n) 0)) := by
  rw [Iterate_eq_some_iff]
  refine ⟨0, Nat.zero_le _, rfl, ?_, ?_⟩
  · intro j hj; omega
  · rw [offsetSolver_retryCond_zero]; norm_num

/-- Without rounding the rounded loop is the loop. -/
theorem retryLoopRounded_id (qrSolve : Mat P P → Vec P → Vec P) (f : IterateFrame R P)
    (fuel : Nat) (t : TrialState R P D) :
    retryLoopRounded id qrSolve f fuel t = retryLoop qrSolve f fuel t := by
  induction fuel generalizing t with
  | zero =>
    unfold retryLoopRounded retryLoop
    rfl
  | succ n ih =>
    rw [retryLoop_succ]
    conv_lhs => unfold retryLoopRounded
    simp only
    rw [ih]
    rfl

/-- Without rounding `IterateRounded` is `Iterate`. -/
theorem IterateRounded_id (qrSolve : Mat P P → Vec P → Vec P) (fuel : Nat)
    (self : LevenbergMarquardt R P D) :
    IterateRounded id qrSolve fuel self = Iterate qrSolve fuel self := by
  unfold IterateRounded Iterate
  simp only [retryLoopRounded_id]
  rfl

end Lemmas

/-- C1, evaluated on the code. The claim says that a returning `Iterate` call leaves the
accepted candidate `P1` in the current parameter vector. On the solver for the residual
`p - 1` started at `p = 0`, `Iterate` returns success with the accepted candidate
`P1 = -1/2`, and `_CurrentParams` is still `0`: the candidate is not committed. -/
theorem C1_Iterate_leaves_CurrentParams :
    ∃ r, Iterate exactSolve 0 (offsetSolver 1 0 1) = some r ∧ r.ret = true ∧
      r.P1 = (fun _ => -1 / 2) ∧ r.self._CurrentParams = (fun _ => 0) ∧
      r.self._CurrentParams ≠ r.P1 := by
  refine ⟨iterateExit (iterateFrame (offsetSolver 1 0 1))
    (trialAt exactSolve (offsetSolver 1 0 1) 0), ?_, rfl, ?_, ?_, ?_⟩
  · rw [Iterate_eq_some_iff]
    refine ⟨0, le_refl _, rfl, ?_, ?_⟩
    · intro j hj; omega
    · rw [offsetSolver_retryCond_zero]; norm_num
  · show (trialAt exactSolve (offsetSolver 1 0 1) 0).P1 = _
    rw [offsetSolver_P1]; norm_num
  · rw [iterateExit_self]; rfl
  · rw [iterateExit_self]
    show (fun _ => (0 : ℚ)) ≠ (trialAt exactSolve (offsetSolver 1 0 1) 0).P1
    rw [offsetSolver_P1]
    intro h
    have := congrFun h 0
    norm_num at this

/-- C2, evaluated on the code. The claim says that on noiseless line data `Minimize` brings
the current parameters within any tolerance of the true `(a, b)` for a large enough
iteration cap. On the observations `(0, 0)`, `(1, 1)` of the line `a = 1`, `b = 0`, started
at `(0, 0)`: with cap `1` `Minimize` returns success, and for every cap `n` and every fuel a
returning `Minimize` leaves the current parameters at `(0, 0)`, at distance `1` from the
true `a`, so not within the tolerance `1/2`. -/
theorem C2_Minimize_stays_at_initial_guess :
    (∃ r, Minimize exactSolve 1 (lineSolver 1) = some r ∧ r.ret = true ∧ r.calls = [true]) ∧
      ∀ (n fuel : Nat) (r : MinimizeResult 2 2 2),
        Minimize exactSolve fuel (lineSolver n) = some r →
          r.self._CurrentParams = ![0, 0] ∧
            ¬ (|r.self._CurrentParams 0 - 1| < 1 / 2 ∧ |r.self._CurrentParams 1 - 0| < 1 / 2) := by
  constructor
  · have hI : Iterate exactSolve 1 (lineSolver 1) =
        some (iterateExit (iterateFrame (lineSolver 1)) (trialAt exactSolve (lineSolver 1) 0)) := by
      rw [Iterate_eq_some_iff]
      refine ⟨0, by omega, rfl, ?_, lineSolver_retryCond 1⟩
      intro j hj; omega
    refine ⟨⟨true, (iterateExit (iterateFrame (lineSolver 1))
      (trialAt exactSolve (lineSolver 1) 0)).self, [true]⟩, ?_, rfl, rfl⟩
    · unfold Minimize MinimizeWith
      rw [MinimizeLoop_succ, if_pos (by simp [lineSolver, LevenbergMarquardt.new])]
      simp only [IterateCall, hI, Option.map_some', iterateExit]
      rw [MinimizeLoop_zero]
      simp only [Bool.not_true, Bool.false_eq_true, if_false]
      rw [if_neg (by simp [trialAt_self, lineSolver, LevenbergMarquardt.new])]
      rfl
  · intro n fuel r h
    have hp := Minimize_CurrentParams _ _ _ _ h
    have hp0 : r.self._CurrentParams = ![0, 0] := by rw [hp]; rfl
    refine ⟨hp0, ?_⟩
    rw [hp0]
    norm_num

/-- C3, evaluated on the code. The claim says that the accepted candidate never has a larger
sum of squared residuals than the current parameters. On the solver for the residual `p - 1`
started at `p = 0`, the first test compares the plain sums `-3/2` and `-1`, so `Iterate`
accepts the first candidate and returns; its squared residual `9/4` is larger than the
squared residual `1` at the current parameters. -/
theorem C3_accepted_candidate_can_be_worse :
    ∃ r, Iterate exactSolve 0 (offsetSolver 1 0 1) = some r ∧
      Matrix.dotProduct r.frame.Ep0 r.frame.Ep0 = 1 ∧ Matrix.dotProduct r.Ep1 r.Ep1 = 9 / 4 ∧
      Matrix.dotProduct r.Ep1 r.Ep1 > Matrix.dotProduct r.frame.Ep0 r.frame.Ep0 := by
  have h0 : Matrix.dotProduct (iterateFrame (offsetSolver 1 0 1)).Ep0
      (iterateFrame (offsetSolver 1 0 1)).Ep0 = 1 := by
    rw [offsetSolver_Ep0]; simp [Matrix.dotProduct]
  have h1 : Matrix.dotProduct (trialAt exactSolve (offsetSolver 1 0 1) 0).Ep1
      (trialAt exactSolve (offsetSolver 1 0 1) 0).Ep1 = 9 / 4 := by
    rw [offsetSolver_Ep1]; simp [Matrix.dotProduct]; norm_num
  refine ⟨iterateExit (iterateFrame (offsetSolver 1 0 1))
    (trialAt exactSolve (offsetSolver 1 0 1) 0), ?_, h0, h1, ?_⟩
  · rw [Iterate_eq_some_iff]
    refine ⟨0, le_refl _, rfl, ?_, ?_⟩
    · intro j hj; omega
    · rw [offsetSolver_retryCond_zero]; norm_num
  · show Matrix.dotProduct (trialAt exactSolve (offsetSolver 1 0 1) 0).Ep1
      (trialAt exactSolve (offsetSolver 1 0 1) 0).Ep1 >
        Matrix.dotProduct (iterateFrame (offsetSolver 1 0 1)).Ep0
          (iterateFrame (offsetSolver 1 0 1)).Ep0
    rw [h1, h0]; norm_num

/-- C7 as stated fails on the code. Every evaluation of `failingFunction` fails; `Iterate`
returns success, and `Minimize` with an iteration cap of one returns success. -/
theorem C7_failed_evaluation_reported_as_success :
    (∀ pts p, (failingFunction.EvaluateJ pts p).1 = false) ∧
      (∀ pts p, (failingFunction.Evaluate pts p).1 = false) ∧
      failingSolver._Options.MaxIterations = 1 ∧
      (∃ r, Iterate exactSolve 1 failingSolver = some r ∧ r.ret = true) ∧
      (∃ r, Minimize exactSolve 1 failingSolver = some r ∧ r.ret = true) :=
  ⟨fun _ _ => rfl, fun _ _ => rfl, rfl, ⟨_, failingSolver_Iterate 1, rfl⟩,
    ⟨_, Minimize_one exactSolve 0 failingSolver _ rfl (failingSolver_Iterate 1), rfl⟩⟩

/-- C7, amended. `Iterate` does not look at the outcome of the evaluations: an `Iterate`
call that returns reports success, whatever the error function reports; hence a `Minimize`
call that returns reports success, after `MaxIterations` calls of `Iterate` that each
reported success. -/
theorem C7_Iterate_reports_success {R P D : Nat} (qrSolve : Mat P P → Vec P → Vec P)
    (fuel : Nat) (self : LevenbergMarquardt R P D) (r : MinimizeResult R P D)
    (h : Minimize qrSolve fuel self = some r) :
    (∀ (fuel1 : Nat) (s : LevenbergMarquardt R P D) (r1 : IterateResult R P D),
      Iterate qrSolve fuel1 s = some r1 → r1.ret = true) ∧
      r.ret = true ∧ r.calls = List.replicate self._Options.MaxIterations true := by
  refine ⟨fun fuel1 s r1 h1 => Iterate_ret qrSolve fuel1 s r1 h1, ?_⟩
  have hret := MinimizeLoop_ret_of_success (IterateCall qrSolve fuel)
    (IterateCall_ret qrSolve fuel) fuel 0 self [] r h
  refine ⟨hret, ?_⟩
  rcases MinimizeLoop_calls (IterateCall qrSolve fuel) (IterateCall_MaxIterations qrSolve fuel)
    fuel 0 self r (Nat.zero_le _) h with ⟨-, h2⟩ | ⟨h1, -⟩
  · exact h2
  · rw [hret] at h1
    exact absurd h1 (by decide)

/-- C7, amended, at the error function whose every evaluation fails. -/
theorem C7_Iterate_reports_success_witness :
    Minimize exactSolve 1 failingSolver =
        some { ret := true
               self := (iterateExit (iterateFrame failingSolver)
                 (trialAt exactSolve failingSolver 0)).self
               calls := [true] } ∧
      (∀ (fuel1 : Nat) (s : LevenbergMarquardt 1 1 1) (r1 : IterateResult 1 1 1),
        Iterate exactSolve fuel1 s = some r1 → r1.ret = true) :=
  ⟨Minimize_one exactSolve 0 failingSolver _ rfl (failingSolver_Iterate 1),
    (C7_Iterate_reports_success exactSolve 1 failingSolver _
      (Minimize_one exactSolve 0 failingSolver _ rfl (failingSolver_Iterate 1))).1⟩

/-- C10. The loop condition of `Iterate` at the first candidate is the comparison of the
plain element sum of `E1` with the plain element sum of `E0`; at every retry candidate it is
the comparison of `E1ᵗ·E1` with that same plain element sum of `E0`. Here `E0` is the residual
vector at the current parameters and `E1` the residual vector at the candidate of the trial.
A call of `Iterate` returns exactly from the first trial, within the fuel, whose condition
is false. -/
theorem C10_acceptance_tests {R P D : Nat} (qrSolve : Mat P P → Vec P → Vec P)
    (self : LevenbergMarquardt R P D) :
    (retryCond (iterateFrame self) (trialAt qrSolve self 0) = true ↔
        ∑ i, (self._Function.Evaluate self._DataPoints (trialAt qrSolve self 0).P1).2 i >
          ∑ i, (self._Function.EvaluateJ self._DataPoints self._CurrentParams).2.1 i) ∧
      (∀ k, retryCond (iterateFrame self) (trialAt qrSolve self (k + 1)) = true ↔
        Matrix.dotProduct
            (self._Function.Evaluate self._DataPoints (trialAt qrSolve self (k + 1)).P1).2
            (self._Function.Evaluate self._DataPoints (trialAt qrSolve self (k + 1)).P1).2 >
          ∑ i, (self._Function.EvaluateJ self._DataPoints self._CurrentParams).2.1 i) ∧
      (∀ fuel r, Iterate qrSolve fuel self = some r ↔
        ∃ k, k ≤ fuel ∧ r = iterateExit (iterateFrame self) (trialAt qrSolve self k) ∧
          (∀ j, j < k → retryCond (iterateFrame self) (trialAt qrSolve self j) = true) ∧
          retryCond (iterateFrame self) (trialAt qrSolve self k) = false) := by
  refine ⟨?_, ?_, fun fuel r => Iterate_eq_some_iff qrSolve fuel self r⟩
  · unfold retryCond
    rw [trialAt_Ep1Sum_zero, trialAt_Ep1]
    simp [iterateFrame]
  · intro k
    unfold retryCond
    rw [trialAt_Ep1Sum_succ, trialAt_Ep1]
    simp [iterateFrame]

/-- C12. The loop of `Iterate` has no bound. For the one-parameter residual `1 - p` at
`p = 0` with `λ = 1 > 0` and `v = 2 > 1`, under an exact solve, the first candidate and
every retry candidate are rejected: the loop condition holds at every trial `k`, and
`Iterate` returns with no amount of fuel. -/
theorem C12_acceptance_loop_unbounded :
    0 < mirrorSolver._Options.LevenbergMarquardtLambda ∧
      1 < mirrorSolver._Options.LevenbergMarquardtV ∧
      mirrorSolver._CurrentParams = (fun _ => 0) ∧
      (∀ p : Vec 1, (mirrorSolver._Function.Evaluate mirrorSolver._DataPoints p).2 =
        fun _ => 1 - p 0) ∧
      (∀ p : Vec 1, (mirrorSolver._Function.EvaluateJ mirrorSolver._DataPoints p).2.1 =
        fun _ => 1 - p 0) ∧
      (∀ p : Vec 1, (mirrorSolver._Function.EvaluateJ mirrorSolver._DataPoints p).2.2 =
        fun _ _ => -1) ∧
      (∀ k, retryCond (iterateFrame mirrorSolver) (trialAt exactSolve mirrorSolver k) = true) ∧
      (∀ fuel, Iterate exactSolve fuel mirrorSolver = none) := by
  refine ⟨by norm_num [mirrorSolver, LevenbergMarquardt.new],
    by norm_num [mirrorSolver, LevenbergMarquardt.new], rfl, ?_, ?_, ?_, mirrorSolver_rejected,
    Iterate_eq_none_of_rejected exactSolve mirrorSolver mirrorSolver_rejected⟩
  · intro p
    funext i
    simp [mirrorSolver, LevenbergMarquardt.new, affineFunction]
    ring
  · intro p
    funext i
    simp [mirrorSolver, LevenbergMarquardt.new, affineFunction]
    ring
  · intro p
    funext i j
    simp [mirrorSolver, LevenbergMarquardt.new, affineFunction]

/-- C13. Frame of `Iterate` and `Minimize`. After a call that returns, the stored data
points, the growth multiplier `v` and `MaxIterations` are what they were before it, and the
object differs from the one before the call at most in the damping member of its options
that lines 75 and 86 update, `LevenbergMarquartLambda`. -/
theorem C13_frame_of_Iterate_and_Minimize {R P D : Nat} (qrSolve : Mat P P → Vec P → Vec P)
    (fuel : Nat) (self : LevenbergMarquardt R P D) :
    (∀ r, Iterate qrSolve fuel self = some r →
      r.self._DataPoints = self._DataPoints ∧
        r.self._Options.LevenbergMarquardtV = self._Options.LevenbergMarquardtV ∧
        r.self._Options.MaxIterations = self._Options.MaxIterations ∧
        r.self =
          { self with
            _Options :=
              { self._Options with
                LevenbergMarquartLambda := r.self._Options.LevenbergMarquartLambda } }) ∧
      (∀ r, Minimize qrSolve fuel self = some r →
        r.self._DataPoints = self._DataPoints ∧
          r.self._Options.LevenbergMarquardtV = self._Options.LevenbergMarquardtV ∧
          r.self._Options.MaxIterations = self._Options.MaxIterations ∧
          r.self =
            { self with
              _Options :=
                { self._Options with
                  LevenbergMarquartLambda := r.self._Options.LevenbergMarquartLambda } }) := by
  have key : ∀ (s : LevenbergMarquardt R P D) (l : ℚ),
      s = { self with _Options := { self._Options with LevenbergMarquartLambda := l } } →
      s._DataPoints = self._DataPoints ∧
        s._Options.LevenbergMarquardtV = self._Options.LevenbergMarquardtV ∧
        s._Options.MaxIterations = self._Options.MaxIterations ∧
        s = { self with
              _Options :=
                { self._Options with
                  LevenbergMarquartLambda := s._Options.LevenbergMarquartLambda } } := by
    intro s l hs
    subst hs
    exact ⟨rfl, rfl, rfl, rfl⟩
  constructor
  · intro r hr
    obtain ⟨k, hk⟩ := Iterate_self _ _ _ _ hr
    exact key _ _ hk
  · intro r hr
    have hinv := MinimizeLoop_invariant (IterateCall qrSolve fuel)
      (fun s => ∃ l : ℚ,
        s = { self with _Options := { self._Options with LevenbergMarquartLambda := l } })
      ?_ fuel 0 self [] r ⟨self._Options.LevenbergMarquartLambda, rfl⟩ hr
    · obtain ⟨l, hl⟩ := hinv
      exact key _ _ hl
    · rintro s b s1 ⟨l, rfl⟩ hc
      obtain ⟨r1, hr1, -, rfl⟩ := IterateCall_eq_some _ _ _ _ _ hc
      obtain ⟨k, hk⟩ := Iterate_self _ _ _ _ hr1
      exact ⟨_, hk⟩

/-- C13 at the residual `p` started at `p = 1/4`: `Iterate` and `Minimize` return, and the
data points, `v` and `MaxIterations` are unchanged. -/
theorem C13_frame_of_Iterate_and_Minimize_witness :
    (∃ r, Iterate exactSolve 1 (offsetSolver 0 (1 / 4) 1) = some r ∧
        r.self._DataPoints = (offsetSolver 0 (1 / 4) 1)._DataPoints ∧
        r.self._Options.LevenbergMarquardtV = 2 ∧ r.self._Options.MaxIterations = 1) ∧
      (∃ r, Minimize exactSolve 1 (offsetSolver 0 (1 / 4) 1) = some r ∧
        r.self._DataPoints = (offsetSolver 0 (1 / 4) 1)._DataPoints ∧
        r.self._Options.LevenbergMarquardtV = 2 ∧ r.self._Options.MaxIterations = 1) := by
  have h := C13_frame_of_Iterate_and_Minimize exactSolve 1 (offsetSolver 0 (1 / 4) 1)
  have hI := offsetSolver_Iterate_retry 1
  have hM := Minimize_one exactSolve 0 (offsetSolver 0 (1 / 4) 1) _ rfl hI
  obtain ⟨a1, a2, a3, -⟩ := h.1 _ hI
  obtain ⟨b1, b2, b3, -⟩ := h.2 _ hM
  exact ⟨⟨_, hI, a1, a2, a3⟩, ⟨_, hM, b1, b2, b3⟩⟩

/-- C14. The step of every trial of `Iterate` is not a descent direction of the squared
residual. With an exact solve, whenever the damped matrix `JᵗJ + λ_k·diag(JᵗJ)` of the trial
is positive definite, the step `Δ` solves the damped system with the right-hand side
`+Jᵗ·E0`, the candidate is `Δ + P0`, and `(Jᵗ·E0)ᵗ·Δ ≥ 0`, with strict inequality when
`Jᵗ·E0 ≠ 0`. -/
theorem C14_step_is_not_a_descent_direction {R P D : Nat} (qrSolve : Mat P P → Vec P → Vec P)
    (self : LevenbergMarquardt R P D) (k : Nat) (hs : SolveExact qrSolve)
    (hpd : PositiveDefinite ((iterateFrame self).JtJ +
      (trialAt qrSolve self k).self._Options.LevenbergMarquardtLambda •
        (iterateFrame self).JtJdiag)) :
    (iterateFrame self).JtEp0 =
        (self._Function.EvaluateJ self._DataPoints self._CurrentParams).2.2.transpose.mulVec
          (self._Function.EvaluateJ self._DataPoints self._CurrentParams).2.1 ∧
      ((iterateFrame self).JtJ +
        (trialAt qrSolve self k).self._Options.LevenbergMarquardtLambda •
          (iterateFrame self).JtJdiag).mulVec (trialAt qrSolve self k).P1mP0 =
        (iterateFrame self).JtEp0 ∧
      (trialAt qrSolve self k).P1 = (trialAt qrSolve self k).P1mP0 + self._CurrentParams ∧
      0 ≤ Matrix.dotProduct (iterateFrame self).JtEp0 (trialAt qrSolve self k).P1mP0 ∧
      ((iterateFrame self).JtEp0 ≠ 0 →
        0 < Matrix.dotProduct (iterateFrame self).JtEp0 (trialAt qrSolve self k).P1mP0) := by
  have hsol : ((iterateFrame self).JtJ +
      (trialAt qrSolve self k).self._Options.LevenbergMarquardtLambda •
        (iterateFrame self).JtJdiag).mulVec (trialAt qrSolve self k).P1mP0 =
      (iterateFrame self).JtEp0 := by
    rw [trialAt_P1mP0, trialAt_lambda]
    rw [trialAt_lambda] at hpd
    exact hs _ _ hpd.det_ne_zero
  have hdot := hpd.dotProduct_solution _ _ hsol
  exact ⟨rfl, hsol, trialAt_P1 qrSolve self k, hdot.1, hdot.2⟩

/-- C14 at the first trial on the residual `p` started at `p = 1/4`, with the rule of Cramer
as the solve: the Jacobian `1` has full column rank and `λ = 1`, so the damped matrix is
positive definite, `Jᵗ·E0 = 1/4` is not zero, and its inner product with the step is
positive. -/
theorem C14_step_is_not_a_descent_direction_witness :
    SolveExact (exactSolve (P := 1)) ∧
      PositiveDefinite ((iterateFrame (offsetSolver 0 (1 / 4) 1)).JtJ +
        (trialAt exactSolve (offsetSolver 0 (1 / 4) 1) 0).self._Options.LevenbergMarquardtLambda •
          (iterateFrame (offsetSolver 0 (1 / 4) 1)).JtJdiag) ∧
      (iterateFrame (offsetSolver 0 (1 / 4) 1)).JtEp0 ≠ 0 ∧
      0 < Matrix.dotProduct (iterateFrame (offsetSolver 0 (1 / 4) 1)).JtEp0
        (trialAt exactSolve (offsetSolver 0 (1 / 4) 1) 0).P1mP0 := by
  have hpd : PositiveDefinite ((iterateFrame (offsetSolver 0 (1 / 4) 1)).JtJ +
      (trialAt exactSolve (offsetSolver 0 (1 / 4) 1) 0).self._Options.LevenbergMarquardtLambda •
        (iterateFrame (offsetSolver 0 (1 / 4) 1)).JtJdiag) := by
    refine damped_positiveDefinite (iterateFrame (offsetSolver 0 (1 / 4) 1)).J _ ?_ ?_
    · rw [trialAt_lambda]
      norm_num [offsetSolver, LevenbergMarquardt.new]
    · intro x hx
      have h0 := congrFun hx 0
      funext i
      have hi : i = 0 := Subsingleton.elim _ _
      subst hi
      simpa [iterateFrame, offsetSolver, LevenbergMarquardt.new, offsetFunction,
        Matrix.mulVec, Matrix.dotProduct] using h0
  have hg : (iterateFrame (offsetSolver 0 (1 / 4) 1)).JtEp0 ≠ 0 := by
    intro h
    have h0 := congrFun h 0
    simp [iterateFrame, offsetSolver, LevenbergMarquardt.new, offsetFunction,
      Matrix.mulVec, Matrix.dotProduct] at h0
  exact ⟨exactSolve_exact, hpd, hg,
    (C14_step_is_not_a_descent_direction exactSolve (offsetSolver 0 (1 / 4) 1) 0
      exactSolve_exact hpd).2.2.2.2 hg⟩

/-- C15. In an `Iterate` call in which the plain element sum of `E0` is negative and the
first candidate is rejected (the plain element sum of `E1` at the first candidate is larger
than that of `E0`), every retry candidate is rejected as well, since `E1ᵗ·E1 ≥ 0`: the loop
condition holds at every trial and `Iterate` returns with no amount of fuel, whatever the
damping factor, the growth multiplier, the error function and the linear solve are. -/
theorem C15_negative_sum_never_returns {R P D : Nat} (qrSolve : Mat P P → Vec P → Vec P)
    (self : LevenbergMarquardt R P D)
    (h0 : ∑ i, (self._Function.EvaluateJ self._DataPoints self._CurrentParams).2.1 i < 0)
    (h1 : ∑ i, (self._Function.Evaluate self._DataPoints (trialAt qrSolve self 0).P1).2 i >
      ∑ i, (self._Function.EvaluateJ self._DataPoints self._CurrentParams).2.1 i) :
    (∀ k, retryCond (iterateFrame self) (trialAt qrSolve self k) = true) ∧
      (∀ fuel, Iterate qrSolve fuel self = none) := by
  have hall : ∀ k, retryCond (iterateFrame self) (trialAt qrSolve self k) = true := by
    intro k
    cases k with
    | zero =>
      unfold retryCond
      rw [trialAt_Ep1Sum_zero, trialAt_Ep1]
      simpa [iterateFrame] using h1
    | succ k =>
      have hnn : 0 ≤ Matrix.dotProduct (trialAt qrSolve self (k + 1)).Ep1
          (trialAt qrSolve self (k + 1)).Ep1 :=
        Finset.sum_nonneg fun i _ => mul_self_nonneg _
      unfold retryCond
      rw [trialAt_Ep1Sum_succ]
      have hlt : (iterateFrame self).Ep0Sum < 0 := h0
      simp only [gt_iff_lt, decide_eq_true_eq]
      exact lt_of_lt_of_le hlt hnn
  exact ⟨hall, Iterate_eq_none_of_rejected qrSolve self hall⟩

/-- C15 at the residuals `p - 2` and `-3·p + 1` started at `p = 0`, with the rule of Cramer
as the solve: the residual sum is `-1` at the current parameters and `-1/2` at the first
candidate `-1/4`, and `Iterate` never returns. -/
theorem C15_negative_sum_never_returns_witness :
    ∑ i, (negativeSumSolver._Function.EvaluateJ negativeSumSolver._DataPoints
        negativeSumSolver._CurrentParams).2.1 i = -1 ∧
      ∑ i, (negativeSumSolver._Function.Evaluate negativeSumSolver._DataPoints
        (trialAt exactSolve negativeSumSolver 0).P1).2 i = -1 / 2 ∧
      (∀ k, retryCond (iterateFrame negativeSumSolver)
        (trialAt exactSolve negativeSumSolver k) = true) ∧
      (∀ fuel, Iterate exactSolve fuel negativeSumSolver = none) :=
  ⟨negativeSumSolver_Ep0Sum, negativeSumSolver_Ep1Sum,
    C15_negative_sum_never_returns exactSolve negativeSumSolver
      (by rw [negativeSumSolver_Ep0Sum]; norm_num)
      (by rw [negativeSumSolver_Ep1Sum, negativeSumSolver_Ep0Sum]; norm_num)⟩

/-- C6. The loop of `Minimize`, over any `Iterate` that leaves `MaxIterations` alone (the
`Iterate` of this class does); `afterCalls iter j self` is the object that `j` successive
calls of `Iterate` leave when each of them reports success. A returning `Minimize` has made
at most `MaxIterations` calls, and one of two things has happened. Either `MaxIterations`
successive calls (none when `MaxIterations = 0`) all reported success, and `Minimize` returns
success on the object they left. Or `m < MaxIterations` successive calls reported success,
the next call reported failure, no call followed it, and `Minimize` returns failure on the
object that call left. Conversely, in each of the two cases `Minimize` returns that result
once the fuel covers the calls, and it returns whenever every `Iterate` call returns. -/
theorem C6_Minimize_iteration_cap {R P D : Nat}
    (iter : LevenbergMarquardt R P D → Option (Bool × LevenbergMarquardt R P D))
    (self : LevenbergMarquardt R P D)
    (hmax : ∀ s b s1, iter s = some (b, s1) →
      s1._Options.MaxIterations = s._Options.MaxIterations) :
    (∀ fuel r, MinimizeWith iter fuel self = some r →
      r.calls.length ≤ self._Options.MaxIterations ∧
        ((r.ret = true ∧ afterCalls iter self._Options.MaxIterations self = some r.self ∧
            r.calls = List.replicate self._Options.MaxIterations true) ∨
          (r.ret = false ∧ ∃ m s, m < self._Options.MaxIterations ∧
            afterCalls iter m self = some s ∧ iter s = some (false, r.self) ∧
            r.calls = List.replicate m true ++ [false]))) ∧
      (∀ fuel s, self._Options.MaxIterations ≤ fuel →
        afterCalls iter self._Options.MaxIterations self = some s →
        MinimizeWith iter fuel self =
          some { ret := true, self := s
                 calls := List.replicate self._Options.MaxIterations true }) ∧
      (∀ fuel m s s1, m < self._Options.MaxIterations → m + 1 ≤ fuel →
        afterCalls iter m self = some s → iter s = some (false, s1) →
        MinimizeWith iter fuel self =
          some { ret := false, self := s1, calls := List.replicate m true ++ [false] }) ∧
      ((∀ s, ∃ p, iter s = some p) → ∀ fuel, self._Options.MaxIterations ≤ fuel →
        ∃ r, MinimizeWith iter fuel self = some r) := by
  refine ⟨?_, ?_, ?_, ?_⟩
  · intro fuel r h
    rcases MinimizeLoop_spec iter hmax fuel 0 self [] r (Nat.zero_le _) h with
      ⟨h1, h2, h3⟩ | ⟨h1, m, s, hm1, hm2, hm3, hm4⟩
    · simp only [Nat.sub_zero, List.nil_append] at h2 h3
      exact ⟨by simp [h3], Or.inl ⟨h1, h2, h3⟩⟩
    · simp only [Nat.sub_zero, List.nil_append] at hm1 hm4
      refine ⟨?_, Or.inr ⟨h1, m, s, hm1, hm2, hm3, hm4⟩⟩
      rw [hm4]
      simp
      omega
  · intro fuel s hfuel h
    have := MinimizeLoop_of_success iter hmax fuel 0 self s [] (by simpa using hfuel)
      (by simpa using h)
    simpa [MinimizeWith] using this
  · intro fuel m s s1 hm hfuel h hf
    have := MinimizeLoop_of_failure iter hmax fuel 0 m self s s1 [] (by simpa using hm) hfuel
      h hf
    simpa [MinimizeWith] using this
  · intro hret fuel hfuel
    exact MinimizeLoop_returns iter hmax hret fuel 0 self [] (by omega)

/-- C6 at the `Iterate` of the class, on the residual `p` started at `p = 1/4` with an
iteration cap of one: `Minimize` returns success after one call, on the object that call
left. -/
theorem C6_Minimize_iteration_cap_witness :
    (∀ (s : LevenbergMarquardt 1 1 1) (b : Bool) (s1 : LevenbergMarquardt 1 1 1),
      IterateCall exactSolve 1 s = some (b, s1) →
        s1._Options.MaxIterations = s._Options.MaxIterations) ∧
      (∃ r, Minimize exactSolve 1 (offsetSolver 0 (1 / 4) 1) = some r ∧ r.ret = true ∧
        r.calls = [true] ∧
        IterateCall exactSolve 1 (offsetSolver 0 (1 / 4) 1) = some (true, r.self) ∧
        afterCalls (IterateCall exactSolve 1) 1 (offsetSolver 0 (1 / 4) 1) = some r.self) := by
  have hmax := IterateCall_MaxIterations (R := 1) (P := 1) (D := 1) exactSolve 1
  have hM := Minimize_one exactSolve 0 (offsetSolver 0 (1 / 4) 1) _ rfl
    (offsetSolver_Iterate_retry 1)
  have hspec := (C6_Minimize_iteration_cap (IterateCall exactSolve 1)
    (offsetSolver 0 (1 / 4) 1) hmax).1 1 _ hM
  have hcall : IterateCall exactSolve 1 (offsetSolver 0 (1 / 4) 1) =
      some (true, (iterateExit (iterateFrame (offsetSolver 0 (1 / 4) 1))
        (trialAt exactSolve (offsetSolver 0 (1 / 4) 1) 1)).self) := by
    unfold IterateCall
    rw [offsetSolver_Iterate_retry 1]
    rfl
  refine ⟨hmax, _, hM, rfl, rfl, hcall, ?_⟩
  rcases hspec.2 with ⟨-, h2, -⟩ | ⟨h1, -⟩
  · exact h2
  · exact absurd h1 (by decide)

/-- C11. Here `J` and `E0` are the outputs of the four-argument overload at the current
parameters `P0`, `c = trialCandidate` is the candidate solved from them, and
`E1 = trialResiduals` the output of the three-argument overload at `c`.
In every `Iterate` call that returns: the frame `J`, `E0`, `JᵗJ`, `diag(JᵗJ)`, `Jᵗ·E0` is
computed from the one evaluation with the Jacobian at `P0`; the accepted candidate is `c`
and its residuals are `E1`; the number `k` of rejected trials is `0` when the first test
fails and `1` when the first test holds and the retry test fails; and the record of the
error-function calls is one call with the Jacobian at `P0` followed by `k + 1` calls
without, one at the candidate of each trial. Every pass through the loop body solves from
the frame it is given, without a Jacobian evaluation, evaluates the residuals at the
candidate it has just formed and records that one call. Conversely the call returns, with
two recorded calls when the first test fails, and with three when the first test holds, the
retry test fails and there is fuel for one pass. -/
theorem C11_error_function_calls {R P D : Nat} (qrSolve : Mat P P → Vec P → Vec P)
    (fuel : Nat) (self : LevenbergMarquardt R P D) :
    (∀ r, Iterate qrSolve fuel self = some r →
      r.frame.J = (self._Function.EvaluateJ self._DataPoints self._CurrentParams).2.2 ∧
        r.frame.Ep0 = (self._Function.EvaluateJ self._DataPoints self._CurrentParams).2.1 ∧
        r.frame.JtJ = r.frame.J.transpose * r.frame.J ∧
        r.frame.JtJdiag = Matrix.diagonal (Matrix.diag r.frame.JtJ) ∧
        r.frame.JtEp0 = r.frame.J.transpose.mulVec r.frame.Ep0 ∧
        r.P1 = trialCandidate qrSolve self ∧
        r.Ep1 = trialResiduals qrSolve self ∧
        ∃ k, (∀ j, j < k → retryCond (iterateFrame self) (trialAt qrSolve self j) = true) ∧
          retryCond (iterateFrame self) (trialAt qrSolve self k) = false ∧
          ((k = 0 ∧ ¬ ∑ i, trialResiduals qrSolve self i >
              ∑ i, (self._Function.EvaluateJ self._DataPoints self._CurrentParams).2.1 i) ∨
            (k = 1 ∧
              ∑ i, trialResiduals qrSolve self i >
                ∑ i, (self._Function.EvaluateJ self._DataPoints self._CurrentParams).2.1 i ∧
              ¬ Matrix.dotProduct (trialResiduals qrSolve self) (trialResiduals qrSolve self) >
                ∑ i, (self._Function.EvaluateJ self._DataPoints self._CurrentParams).2.1 i)) ∧
          (∀ j, j ≤ k → (trialAt qrSolve self j).P1 = trialCandidate qrSolve self ∧
            (trialAt qrSolve self j).Ep1 = trialResiduals qrSolve self) ∧
          r.evals = EvalCall.withJacobian self._CurrentParams ::
            List.replicate (k + 1) (EvalCall.residualsOnly (trialCandidate qrSolve self)) ∧
          r.evals.countP EvalCall.hasJacobian = 1 ∧
          r.evals.countP (fun c => !c.hasJacobian) = k + 1) ∧
      (∀ (f : IterateFrame R P) (t : TrialState R P D),
        (retryBody qrSolve f t).P1mP0 =
            qrSolve (f.JtJ + t.self._Options.LevenbergMarquardtLambda • f.JtJdiag) f.JtEp0 ∧
          (retryBody qrSolve f t).P1 = (retryBody qrSolve f t).P1mP0 + t.self._CurrentParams ∧
          (retryBody qrSolve f t).Ep1 =
            (t.self._Function.Evaluate t.self._DataPoints (retryBody qrSolve f t).P1).2 ∧
          (retryBody qrSolve f t).evals =
            t.evals ++ [EvalCall.residualsOnly (retryBody qrSolve f t).P1]) ∧
      ((¬ ∑ i, trialResiduals qrSolve self i >
          ∑ i, (self._Function.EvaluateJ self._DataPoints self._CurrentParams).2.1 i) →
        ∃ r, Iterate qrSolve fuel self = some r ∧
          r.evals = [EvalCall.withJacobian self._CurrentParams,
            EvalCall.residualsOnly (trialCandidate qrSolve self)]) ∧
      (∑ i, trialResiduals qrSolve self i >
          ∑ i, (self._Function.EvaluateJ self._DataPoints self._CurrentParams).2.1 i →
        (¬ Matrix.dotProduct (trialResiduals qrSolve self) (trialResiduals qrSolve self) >
          ∑ i, (self._Function.EvaluateJ self._DataPoints self._CurrentParams).2.1 i) →
        1 ≤ fuel →
        ∃ r, Iterate qrSolve fuel self = some r ∧
          r.evals = [EvalCall.withJacobian self._CurrentParams,
            EvalCall.residualsOnly (trialCandidate qrSolve self),
            EvalCall.residualsOnly (trialCandidate qrSolve self)]) := by
  refine ⟨?_, ?_, ?_, ?_⟩
  · intro r h
    obtain ⟨k, -, rfl, hall, hlast⟩ := (Iterate_eq_some_iff _ _ _ _).1 h
    refine ⟨rfl, rfl, rfl, rfl, rfl, trialAt_P1_eq qrSolve self k, trialAt_Ep1_eq qrSolve self k,
      k, hall, hlast, ?_, fun j _ => ⟨trialAt_P1_eq qrSolve self j, trialAt_Ep1_eq qrSolve self j⟩,
      trialAt_evals_eq qrSolve self k, (trialAt_evals_count qrSolve self k).1,
      (trialAt_evals_count qrSolve self k).2⟩
    have hk := Iterate_rejected_le_one qrSolve self k hall hlast
    rcases Nat.le_one_iff_eq_zero_or_eq_one.1 hk with rfl | rfl
    · left
      rw [retryCond_zero_eq] at hlast
      exact ⟨rfl, by simpa using hlast⟩
    · right
      have h0 := hall 0 (by omega)
      rw [retryCond_zero_eq] at h0
      rw [show (1 : Nat) = 0 + 1 from rfl, retryCond_succ_eq] at hlast
      exact ⟨rfl, by simpa using h0, by simpa using hlast⟩
  · intro f t
    exact ⟨rfl, rfl, rfl, rfl⟩
  · intro h0
    refine ⟨iterateExit (iterateFrame self) (trialAt qrSolve self 0), ?_, ?_⟩
    · rw [Iterate_eq_some_iff]
      refine ⟨0, Nat.zero_le _, rfl, fun j hj => absurd hj (Nat.not_lt_zero j), ?_⟩
      rw [retryCond_zero_eq]
      simpa using h0
    · exact trialAt_evals_eq qrSolve self 0
  · intro h0 h1 hfuel
    refine ⟨iterateExit (iterateFrame self) (trialAt qrSolve self 1), ?_, ?_⟩
    · rw [Iterate_eq_some_iff]
      refine ⟨1, hfuel, rfl, ?_, ?_⟩
      · intro j hj
        obtain rfl : j = 0 := by omega
        rw [retryCond_zero_eq]
        simpa using h0
      · rw [show (1 : Nat) = 0 + 1 from rfl, retryCond_succ_eq]
        simpa using h1
    · exact trialAt_evals_eq qrSolve self 1

/-- C11 at the residual `p` started at `p = 1/4`: the first candidate `3/8` is rejected, the
retry evaluates the same candidate and accepts it, and the error function has been called
once with the Jacobian and twice without. -/
theorem C11_error_function_calls_witness :
    trialCandidate exactSolve (offsetSolver 0 (1 / 4) 1) = (fun _ => 3 / 8) ∧
      ∃ r, Iterate exactSolve 1 (offsetSolver 0 (1 / 4) 1) = some r ∧
        r.P1 = trialCandidate exactSolve (offsetSolver 0 (1 / 4) 1) ∧
        r.evals = [EvalCall.withJacobian (offsetSolver 0 (1 / 4) 1)._CurrentParams,
          EvalCall.residualsOnly (trialCandidate exactSolve (offsetSolver 0 (1 / 4) 1)),
          EvalCall.residualsOnly (trialCandidate exactSolve (offsetSolver 0 (1 / 4) 1))] ∧
        r.evals.countP EvalCall.hasJacobian = 1 ∧
        r.evals.countP (fun c => !c.hasJacobian) = 2 := by
  have hc : trialCandidate exactSolve (offsetSolver 0 (1 / 4) 1) = (fun _ => 3 / 8) := by
    rw [← trialAt_P1_eq exactSolve (offsetSolver 0 (1 / 4) 1) 0, offsetSolver_P1]
    norm_num
  have hI := offsetSolver_Iterate_retry 1
  obtain ⟨-, -, -, -, -, h6, -, k, hall, hlast, hk, -, h7, h8, h9⟩ :=
    (C11_error_function_calls exactSolve 1 (offsetSolver 0 (1 / 4) 1)).1 _ hI
  have hk1 : k = 1 := by
    rcases hk with ⟨rfl, -⟩ | ⟨rfl, -⟩
    · rw [offsetSolver_retryCond_zero] at hlast
      norm_num at hlast
    · rfl
  subst hk1
  exact ⟨hc, _, hI, h6, h7, h8, h9⟩

/-- C4, evaluated on the code. The claim says that a rejected trial multiplies the damping
factor by `v`, that acceptance divides it by `v`, and that it is `λ / v` after a call whose
first candidate is accepted. Lines 75 and 86 update the member `LevenbergMarquartLambda`;
the damping factor that the solve reads, `LevenbergMarquardtLambda`, is never assigned. On
the residual `p - 1` started at `p = 0` with `λ = 1`, `v = 2`, the first candidate is
accepted and the call returns with the damping factor still `1`, not `1/2`; the value `1/2`
is in the other member. On the residual `p` started at `p = 1/4`, the first candidate is
rejected and the damping factor at the retry is still `1`, not `2`. -/
theorem C4_damping_factor_is_not_updated :
    (∃ r, Iterate exactSolve 0 (offsetSolver 1 0 1) = some r ∧
        retryCond (iterateFrame (offsetSolver 1 0 1))
          (trialAt exactSolve (offsetSolver 1 0 1) 0) = false ∧
        (offsetSolver 1 0 1)._Options.LevenbergMarquardtLambda /
          (offsetSolver 1 0 1)._Options.LevenbergMarquardtV = 1 / 2 ∧
        r.self._Options.LevenbergMarquardtLambda = 1 ∧
        r.self._Options.LevenbergMarquardtLambda ≠
          (offsetSolver 1 0 1)._Options.LevenbergMarquardtLambda /
            (offsetSolver 1 0 1)._Options.LevenbergMarquardtV ∧
        r.self._Options.LevenbergMarquartLambda = 1 / 2) ∧
      retryCond (iterateFrame (offsetSolver 0 (1 / 4) 1))
        (trialAt exactSolve (offsetSolver 0 (1 / 4) 1) 0) = true ∧
      (offsetSolver 0 (1 / 4) 1)._Options.LevenbergMarquardtLambda *
        (offsetSolver 0 (1 / 4) 1)._Options.LevenbergMarquardtV = 2 ∧
      (trialAt exactSolve (offsetSolver 0 (1 / 4) 1) 1).self._Options.LevenbergMarquardtLambda =
        1 := by
  refine ⟨⟨_, offsetSolver_Iterate_first 1 0, ?_, ?_, ?_, ?_, ?_⟩, ?_, ?_, ?_⟩
  · rw [offsetSolver_retryCond_zero]; norm_num
  · norm_num [offsetSolver, LevenbergMarquardt.new]
  · rw [iterateExit_self]; rfl
  · rw [iterateExit_self]
    norm_num [offsetSolver, LevenbergMarquardt.new]
  · rw [iterateExit_self]
    norm_num [offsetSolver, LevenbergMarquardt.new]
  · rw [offsetSolver_retryCond_zero]; norm_num
  · norm_num [offsetSolver, LevenbergMarquardt.new]
  · rw [trialAt_lambda]; rfl

/-- C8, evaluated on the code. The claim says that at a zero residual one `Iterate` call
computes a zero step, rejects no trial, leaves the current parameters unchanged and leaves
the damping factor at `λ / v`. On the residual `p - 1` started at `p = 1` with `λ = 1`,
`v = 2`, under a solve that returns zero for a zero right-hand side: the call returns, the
step is zero, the first candidate is accepted and the current parameters are unchanged, but
the damping factor is still `1`, not `1/2`: line 86 divides the member
`LevenbergMarquartLambda`, not the damping factor `LevenbergMarquardtLambda` that the solve
reads. -/
theorem C8_zero_residual_damping_factor_unchanged :
    (∀ A : Mat 1 1, exactSolve A 0 = 0) ∧
      ((offsetSolver 1 1 1)._Function.EvaluateJ (offsetSolver 1 1 1)._DataPoints
        (offsetSolver 1 1 1)._CurrentParams).2.1 = 0 ∧
      ((offsetSolver 1 1 1)._Function.Evaluate (offsetSolver 1 1 1)._DataPoints
        (offsetSolver 1 1 1)._CurrentParams).2 = 0 ∧
      ∃ r, Iterate exactSolve 0 (offsetSolver 1 1 1) = some r ∧ r.ret = true ∧
        r.P1mP0 = 0 ∧
        retryCond (iterateFrame (offsetSolver 1 1 1))
          (trialAt exactSolve (offsetSolver 1 1 1) 0) = false ∧
        r.self._CurrentParams = (offsetSolver 1 1 1)._CurrentParams ∧
        (offsetSolver 1 1 1)._Options.LevenbergMarquardtLambda /
          (offsetSolver 1 1 1)._Options.LevenbergMarquardtV = 1 / 2 ∧
        r.self._Options.LevenbergMarquardtLambda = 1 ∧
        r.self._Options.LevenbergMarquardtLambda ≠
          (offsetSolver 1 1 1)._Options.LevenbergMarquardtLambda /
            (offsetSolver 1 1 1)._Options.LevenbergMarquardtV ∧
        r.self._Options.LevenbergMarquartLambda = 1 / 2 := by
  obtain ⟨hJ, hE⟩ := offsetSolver_zero_residual 1
  obtain ⟨hI, hcond, hstep, -⟩ :=
    Iterate_zero_residual exactSolve 0 (offsetSolver 1 1 1) exactSolve_zero hJ hE
  refine ⟨exactSolve_zero, hJ, hE, _, hI, rfl, hstep, hcond, ?_, ?_, ?_, ?_, ?_⟩
  · rw [iterateExit_self]
  · norm_num [offsetSolver, LevenbergMarquardt.new]
  · rw [iterateExit_self]; rfl
  · rw [iterateExit_self]
    norm_num [offsetSolver, LevenbergMarquardt.new]
  · rw [iterateExit_self]
    norm_num [offsetSolver, LevenbergMarquardt.new]

/-- C9, evaluated on the code. The claim says that the `k`-th retry solves the system damped
by `λ·v^k`, the value that line 75 has just multiplied by `v`. Line 75 multiplies the member
`LevenbergMarquartLambda`, and line 78 reads `LevenbergMarquardtLambda`, which is unchanged.
On the residual `p` started at `p = 1/4` with `λ = 1`, `v = 2`, under an exact solve: the
first candidate is rejected, the retry solves with the damping factor `1` again and its
candidate is `3/8`, the first candidate once more; the solve of the system damped by
`λ·v = 2` plus `P0` is `1/3`. -/
theorem C9_retry_reads_unchanged_damping_factor :
    SolveExact (exactSolve (P := 1)) ∧
      retryCond (iterateFrame (offsetSolver 0 (1 / 4) 1))
        (trialAt exactSolve (offsetSolver 0 (1 / 4) 1) 0) = true ∧
      (trialAt exactSolve (offsetSolver 0 (1 / 4) 1) 1).self._Options.LevenbergMarquardtLambda =
        1 ∧
      (trialAt exactSolve (offsetSolver 0 (1 / 4) 1) 1).self._Options.LevenbergMarquartLambda =
        2 ∧
      (trialAt exactSolve (offsetSolver 0 (1 / 4) 1) 0).P1 = (fun _ => 3 / 8) ∧
      (trialAt exactSolve (offsetSolver 0 (1 / 4) 1) 1).P1 = (fun _ => 3 / 8) ∧
      exactSolve
          ((iterateFrame (offsetSolver 0 (1 / 4) 1)).JtJ +
            ((offsetSolver 0 (1 / 4) 1)._Options.LevenbergMarquardtLambda *
              (offsetSolver 0 (1 / 4) 1)._Options.LevenbergMarquardtV ^ 1) •
                (iterateFrame (offsetSolver 0 (1 / 4) 1)).JtJdiag)
          (iterateFrame (offsetSolver 0 (1 / 4) 1)).JtEp0 +
        (offsetSolver 0 (1 / 4) 1)._CurrentParams = (fun _ => 1 / 3) ∧
      (trialAt exactSolve (offsetSolver 0 (1 / 4) 1) 1).P1 ≠
        exactSolve
            ((iterateFrame (offsetSolver 0 (1 / 4) 1)).JtJ +
              ((offsetSolver 0 (1 / 4) 1)._Options.LevenbergMarquardtLambda *
                (offsetSolver 0 (1 / 4) 1)._Options.LevenbergMarquardtV ^ 1) •
                  (iterateFrame (offsetSolver 0 (1 / 4) 1)).JtJdiag)
            (iterateFrame (offsetSolver 0 (1 / 4) 1)).JtEp0 +
          (offsetSolver 0 (1 / 4) 1)._CurrentParams := by
  have hclaimed : exactSolve
        ((iterateFrame (offsetSolver 0 (1 / 4) 1)).JtJ +
          ((offsetSolver 0 (1 / 4) 1)._Options.LevenbergMarquardtLambda *
            (offsetSolver 0 (1 / 4) 1)._Options.LevenbergMarquardtV ^ 1) •
              (iterateFrame (offsetSolver 0 (1 / 4) 1)).JtJdiag)
        (iterateFrame (offsetSolver 0 (1 / 4) 1)).JtEp0 +
      (offsetSolver 0 (1 / 4) 1)._CurrentParams = (fun _ => 1 / 3) := by
    funext i
    simp [iterateFrame, offsetSolver, LevenbergMarquardt.new, offsetFunction, exactSolve,
      Matrix.det_unique, Matrix.adjugate_fin_one, Matrix.mulVec, Matrix.dotProduct,
      Matrix.mul_apply, Matrix.diag]
    norm_num
  have hcode : ∀ k, (trialAt exactSolve (offsetSolver 0 (1 / 4) 1) k).P1 = (fun _ => 3 / 8) := by
    intro k
    rw [offsetSolver_P1]
    norm_num
  refine ⟨exactSolve_exact, ?_, ?_, ?_, hcode 0, hcode 1, hclaimed, ?_⟩
  · rw [offsetSolver_retryCond_zero]; norm_num
  · rw [trialAt_lambda]; rfl
  · rw [trialAt_written]
    norm_num [offsetSolver, LevenbergMarquardt.new]
  · rw [hclaimed, hcode 1]
    intro h
    have := congrFun h 0
    norm_num at this

end LilOpt
